import Mathlib

/-!
vdexExtractor: the Vdex container walker and the quickening reversal driver.

A shallow embedding of `src/vdex.c`.

Modelling conventions.

* Memory is a byte-addressed image `Mem := Nat → Nat`; a byte read reduces the
  stored value modulo 256, multi-byte fields are little endian.
* A C pointer is a natural number.  The target is LP64: pointer arithmetic
  (`cursor + x`) is exact, `uint32_t` arithmetic is reduced modulo `2^32`.
* `vdex.h` and `dex.h` are not part of the sources at hand.  The struct layouts
  they declare are collected in `Layout`, the functions of `dex.c` that
  `vdex.c` calls are collected in `Dex`; both are parameters of the embedding.
* `dex_DexcompileDriver` rewrites instructions in place, so it is a function
  from a memory image to a verdict and a new memory image, and the memory is
  threaded through `vdex_Unquicken`.
* `LOGMSG` and `dex_dumpHeaderInfo` only print; they are left out.  In their
  place the state carries two observation logs (`calls`, `iters`) that no
  branch of the code ever reads.
* The loops whose bound is a field in memory (`number_of_dex_files_`,
  `classDefsSize`) load the field at every test of the loop condition, as the
  C code does; they are defined by recursion on a bound on the number of
  iterations.  The bound `U32` is never reached (`classLoop_fuel`,
  `dexFileLoop_fuel`).
-/

namespace Vdex

/-! Memory, layouts and the functions of `dex.c` -/

/-- Byte-addressed memory image. -/
abbrev Mem := Nat → Nat

/-- Number of values of a `uint32_t`. -/
def U32 : Nat := 4294967296

/-- Read of a `uint8_t`. -/
def rd8 (m : Mem) (a : Nat) : Nat := m a % 256

/-- Read of a little-endian `uint32_t`. -/
def rd32 (m : Mem) (a : Nat) : Nat :=
  rd8 m a + 256 * rd8 m (a + 1) + 65536 * rd8 m (a + 2) + 16777216 * rd8 m (a + 3)

/-- The `n` bytes starting at address `a`. -/
def bytesAt (m : Mem) (a n : Nat) : List Nat :=
  (List.range n).map (fun i => rd8 m (a + i))

/-- Declarations of `vdex.h` and `dex.h` used by `vdex.c`: sizes of the structs,
offsets of their fields and the two constant byte strings. -/
structure Layout where
  sizeof_vdexHeader : Nat
  sizeof_VdexChecksum : Nat
  kVdexMagic : List Nat
  kVdexVersion : List Nat
  off_magic_ : Nat
  off_version_ : Nat
  off_number_of_dex_files_ : Nat
  off_dex_size_ : Nat
  off_verifier_deps_size_ : Nat
  off_quickening_info_size_ : Nat
  off_fileSize : Nat
  off_classDefsSize : Nat
  off_classDefsOff : Nat
  sizeof_dexClassDef : Nat
  off_classDataOff : Nat

/-- The struct `dexClassDataHeader` filled by `dex_readClassDataHeader`
(four `uint32_t` counters). -/
structure dexClassDataHeader where
  staticFieldsSize : Nat
  instanceFieldsSize : Nat
  directMethodsSize : Nat
  virtualMethodsSize : Nat

/-- The struct `dexMethod` filled by `dex_readClassDataMethod`; `vdex.c` reads
only its `codeOff` (a `uint32_t`). -/
structure dexMethod where
  codeOff : Nat

/-- The functions of `dex.c` called from `vdex.c`.  The readers take the memory
and the class-data cursor and give back the advanced cursor (and the decoded
record); `dex_readClassDataField` gives only the cursor since its record is
thrown away by the caller.  `dex_DexcompileDriver m pDexCode ptr size flag`
gives its verdict and the rewritten memory. -/
structure Dex where
  dex_isValidDexMagic : Mem → Nat → Bool
  dex_readClassDataHeader : Mem → Nat → Nat × dexClassDataHeader
  dex_readClassDataField : Mem → Nat → Nat
  dex_readClassDataMethod : Mem → Nat → Nat × dexMethod
  dex_DexcompileDriver : Mem → Nat → Nat → Nat → Bool → Bool × Mem

/-! Header predicates, the section locator and the module iterator (`vdex.c` lines 9-112) -/

/-- The `memcmp` of the `sizeof(kVdexMagic)` bytes of the field `magic_` with the
bytes of `kVdexMagic`. -/
def vdex_isMagicValid (L : Layout) (m : Mem) (cursor : Nat) : Bool :=
  bytesAt m (cursor + L.off_magic_) L.kVdexMagic.length ==
    L.kVdexMagic.map (fun b => b % 256)

/-- The `memcmp` of the `sizeof(kVdexVersion)` bytes of the field `version_` with
the bytes of `kVdexVersion`. -/
def vdex_isVersionValid (L : Layout) (m : Mem) (cursor : Nat) : Bool :=
  bytesAt m (cursor + L.off_version_) L.kVdexVersion.length ==
    L.kVdexVersion.map (fun b => b % 256)

def vdex_isValidVdex (L : Layout) (m : Mem) (cursor : Nat) : Bool :=
  vdex_isMagicValid L m cursor && vdex_isVersionValid L m cursor

def vdex_hasDexSection (L : Layout) (m : Mem) (cursor : Nat) : Bool :=
  rd32 m (cursor + L.off_dex_size_) != 0

/-- The product is computed in `size_t` and returned as `uint32_t`. -/
def vdex_GetSizeOfChecksumsSection (L : Layout) (m : Mem) (cursor : Nat) : Nat :=
  (L.sizeof_VdexChecksum * rd32 m (cursor + L.off_number_of_dex_files_)) % U32

def vdex_DexBegin (L : Layout) (m : Mem) (cursor : Nat) : Nat :=
  cursor + L.sizeof_vdexHeader + vdex_GetSizeOfChecksumsSection L m cursor

def vdex_DexEnd (L : Layout) (m : Mem) (cursor : Nat) : Nat :=
  vdex_DexBegin L m cursor + rd32 m (cursor + L.off_dex_size_)

/-- The iterator `vdex_GetNextDexFileData(cursor, &offset)`: the returned
pointer (`none` for `NULL`) and the value left in `*offset`. -/
def vdex_GetNextDexFileData (L : Layout) (m : Mem) (cursor offset : Nat) :
    Option Nat × Nat :=
  if offset = 0 then
    if vdex_hasDexSection L m cursor then
      let dexBuf := vdex_DexBegin L m cursor
      let offset1 := (L.sizeof_vdexHeader + vdex_GetSizeOfChecksumsSection L m cursor) % U32
      (some dexBuf, (offset1 + rd32 m (dexBuf + L.off_fileSize)) % U32)
    else
      (none, offset)
  else
    let dexBuf := cursor + offset
    let dexBufMax := dexBuf + rd32 m (dexBuf + L.off_fileSize)
    if dexBufMax = vdex_DexEnd L m cursor then
      (some dexBuf, (offset + rd32 m (dexBuf + L.off_fileSize)) % U32)
    else if dexBufMax ≤ vdex_DexEnd L m cursor then
      (some dexBuf, (offset + rd32 m (dexBuf + L.off_fileSize)) % U32)
    else
      (none, offset)

/-- The function indexes a `uint8_t` pointer: it loads one byte. -/
def vdex_GetLocationChecksum (L : Layout) (m : Mem) (cursor fileIdx : Nat) : Nat :=
  rd8 m (cursor + L.sizeof_vdexHeader + fileIdx)

def vdex_GetVerifierDepsData (L : Layout) (m : Mem) (cursor : Nat) : Nat :=
  cursor + rd32 m (cursor + L.off_dex_size_)

def vdex_GetVerifierDepsDataSize (L : Layout) (m : Mem) (cursor : Nat) : Nat :=
  rd32 m (cursor + L.off_verifier_deps_size_)

def vdex_GetQuickeningInfo (L : Layout) (m : Mem) (cursor : Nat) : Nat :=
  cursor + rd32 m (cursor + L.off_dex_size_) + rd32 m (cursor + L.off_verifier_deps_size_)

def vdex_GetQuickeningInfoSize (L : Layout) (m : Mem) (cursor : Nat) : Nat :=
  rd32 m (cursor + L.off_quickening_info_size_)

/-! The reversal driver (`vdex.c` lines 114-255) -/

/-- One call of `dex_DexcompileDriver`: the three arguments it received and the
verdict it gave. -/
structure Call where
  code : Nat
  qptr : Nat
  qsize : Nat
  ok : Bool
deriving DecidableEq

/-- One call of `vdex_GetNextDexFileData`: `*offset` on entry, the pointer
returned, `*offset` on exit. -/
structure IterCall where
  offsetIn : Nat
  dexBuf : Option Nat
  offsetOut : Nat
deriving DecidableEq

/-- The mutable state of `vdex_Unquicken`: the memory, `quickening_info_ptr`,
and the two observation logs. -/
structure St where
  mem : Mem
  qptr : Nat
  calls : List Call
  iters : List IterCall

/-- What `vdex_Unquicken` leaves behind: the state and the returned `bool`. -/
structure Result extends St where
  ok : Bool

/-- Outcome of a loop: it ran to its end (`next`, with the value it leaves), or
`return false` was executed inside it (`fail`). -/
inductive Flow (α : Type) where
  | next (a : α) (s : St)
  | fail (s : St)

/-- The state a loop leaves, whichever way it ended. -/
def Flow.st {α : Type} : Flow α → St
  | Flow.next _ s => s
  | Flow.fail s => s

/-- The two loops that skip the static and the instance fields (lines 182-193):
`n` records are decoded and dropped. -/
def fieldLoop (D : Dex) (m : Mem) : Nat → Nat → Nat
  | 0, cur => cur
  | n + 1, cur => fieldLoop D m n (D.dex_readClassDataField m cur)

/-- The loop over the direct methods (lines 196-219) and the loop over the
virtual methods (lines 222-245); the two bodies are the same text.  The first
argument is the number of iterations left, the second the class-data cursor. -/
def methodLoop (D : Dex) (dexFileBuf : Nat) : Nat → Nat → St → Flow Nat
  | 0, cur, s => Flow.next cur s
  | n + 1, cur, s =>
    let r := D.dex_readClassDataMethod s.mem cur
    let codeOff := r.2.codeOff % U32
    if codeOff = 0 then
      methodLoop D dexFileBuf n r.1 s
    else
      let pDexCode := dexFileBuf + codeOff
      let quickening_size := rd8 s.mem s.qptr
      let ptr := s.qptr + 4
      let t := D.dex_DexcompileDriver s.mem pDexCode ptr quickening_size true
      if t.1 = false then
        Flow.fail { s with mem := t.2, qptr := ptr,
                           calls := s.calls ++ [⟨pDexCode, ptr, quickening_size, false⟩] }
      else
        methodLoop D dexFileBuf n r.1
          { s with mem := t.2, qptr := ptr + quickening_size,
                   calls := s.calls ++ [⟨pDexCode, ptr, quickening_size, true⟩] }

/-- Body of the loop over the classes (lines 158-245) for class `i`. -/
def classBody (L : Layout) (D : Dex) (dexFileBuf dexClassDefs i : Nat) (s : St) : Flow Unit :=
  let classDataOff := rd32 s.mem (dexClassDefs + i * L.sizeof_dexClassDef + L.off_classDataOff)
  if classDataOff = 0 then
    Flow.next () s
  else
    let h := D.dex_readClassDataHeader s.mem (dexFileBuf + classDataOff)
    let c1 := fieldLoop D s.mem (h.2.staticFieldsSize % U32) h.1
    let c2 := fieldLoop D s.mem (h.2.instanceFieldsSize % U32) c1
    match methodLoop D dexFileBuf (h.2.directMethodsSize % U32) c2 s with
    | Flow.fail s1 => Flow.fail s1
    | Flow.next c3 s1 =>
      match methodLoop D dexFileBuf (h.2.virtualMethodsSize % U32) c3 s1 with
      | Flow.fail s2 => Flow.fail s2
      | Flow.next _ s2 => Flow.next () s2

/-- The loop over the classes (line 157).  `classDefsSize` is loaded from memory
at every test of the loop condition.  The first argument bounds the number of
iterations; `i` is a `uint32_t` below `classDefsSize`, so `U32` is enough. -/
def classLoop (L : Layout) (D : Dex) (dexFileBuf dexClassDefs : Nat) : Nat → Nat → St → Flow Unit
  | 0, _, s => Flow.next () s
  | fuel + 1, i, s =>
    if i < rd32 s.mem (dexFileBuf + L.off_classDefsSize) then
      match classBody L D dexFileBuf dexClassDefs i s with
      | Flow.fail s1 => Flow.fail s1
      | Flow.next _ s1 => classLoop L D dexFileBuf dexClassDefs fuel (i + 1) s1
    else
      Flow.next () s

/-- The test after the loop over the dex files (lines 249-254). -/
def finalCheck (quickening_info_end : Nat) (s : St) : Result :=
  if s.qptr ≠ quickening_info_end then { s with ok := false } else { s with ok := true }

/-- The loop over the dex files (lines 131-247) followed by the final test.
`number_of_dex_files_` is loaded from memory at every test of the loop
condition.  The first argument bounds the number of iterations; the index stays
below a `uint32_t`, so `U32` is enough. -/
def dexFileLoop (L : Layout) (D : Dex) (cursor quickening_info_end : Nat) :
    Nat → Nat → Nat → St → Result
  | 0, _, _, s => finalCheck quickening_info_end s
  | fuel + 1, dex_file_idx, offset, s =>
    if dex_file_idx < rd32 s.mem (cursor + L.off_number_of_dex_files_) then
      let it := vdex_GetNextDexFileData L s.mem cursor offset
      let s1 : St := { s with iters := s.iters ++ [⟨offset, it.1, it.2⟩] }
      match it.1 with
      | none => dexFileLoop L D cursor quickening_info_end fuel (dex_file_idx + 1) it.2 s1
      | some dexFileBuf =>
        if D.dex_isValidDexMagic s1.mem dexFileBuf = false then
          dexFileLoop L D cursor quickening_info_end fuel (dex_file_idx + 1) it.2 s1
        else
          let dexClassDefs := dexFileBuf + rd32 s1.mem (dexFileBuf + L.off_classDefsOff)
          match classLoop L D dexFileBuf dexClassDefs U32 0 s1 with
          | Flow.fail s2 => { s2 with ok := false }
          | Flow.next _ s2 =>
            dexFileLoop L D cursor quickening_info_end fuel (dex_file_idx + 1) it.2 s2
    else
      finalCheck quickening_info_end s

/-- The state on entry of the loop over the dex files (lines 122-128). -/
def initSt (L : Layout) (m : Mem) (cursor : Nat) : St :=
  { mem := m, qptr := vdex_GetQuickeningInfo L m cursor, calls := [], iters := [] }

def vdex_Unquicken (L : Layout) (D : Dex) (m : Mem) (cursor : Nat) : Result :=
  if vdex_GetQuickeningInfoSize L m cursor = 0 then
    { initSt L m cursor with ok := true }
  else
    let quickening_info_end :=
      vdex_GetQuickeningInfo L m cursor + vdex_GetQuickeningInfoSize L m cursor
    dexFileLoop L D cursor quickening_info_end U32 0 0 (initSt L m cursor)

/-! Bookkeeping of the quickening cursor -/

/-- Number of bytes of the quickening info taken by a list of calls: a 4-byte
length and the payload for each. -/
def consumed (l : List Call) : Nat := (l.map (fun c => 4 + c.qsize)).sum

/-- The calls of `l` take their records back to back from address `q`: each
payload starts 4 bytes after the end of the previous record. -/
def Chained : Nat → List Call → Prop
  | _, [] => True
  | q, c :: cs => c.qptr = q + 4 ∧ Chained (c.qptr + c.qsize) cs

/-- From `s` to `s1` the transform was called on `new`, every time with
success. -/
def Good (s s1 : St) : Prop :=
  ∃ new, s1.calls = s.calls ++ new ∧ (∀ c ∈ new, c.ok = true) ∧
    Chained s.qptr new ∧ s1.qptr = s.qptr + consumed new

/-- From `s` to `s1` the transform was called on `new` with success and then
once more, on `c`, without. -/
def Bad (s s1 : St) : Prop :=
  ∃ new c, s1.calls = s.calls ++ (new ++ [c]) ∧ (∀ x ∈ new, x.ok = true) ∧
    c.ok = false ∧ Chained s.qptr (new ++ [c]) ∧ s1.qptr = c.qptr

/-- What a loop started in `s` may leave. -/
def FlowOk {α : Type} (s : St) : Flow α → Prop
  | Flow.next _ s1 => Good s s1
  | Flow.fail s1 => Bad s s1

/-- What the loop over the dex files started in `s` may leave. -/
def ResultOk (s : St) (quickening_info_end : Nat) (r : Result) : Prop :=
  (r.ok = true → Good s r.toSt ∧ r.qptr = quickening_info_end) ∧
  (r.ok = false → Bad s r.toSt ∨ (Good s r.toSt ∧ r.qptr ≠ quickening_info_end))

/-- Every call of `new` took its length from the byte before its payload, in a
memory image of the set `I`. -/
def ReadsIn (I : Mem → Prop) (new : List Call) : Prop :=
  ∀ c ∈ new, ∃ m1, I m1 ∧ c.qsize = rd8 m1 (c.qptr - 4)

/-- From `s` to `s1` the transform was called on `new`, every time with success,
on records taken back to back, the lengths read in memory images of `I`. -/
def Walk (I : Mem → Prop) (s s1 : St) (new : List Call) : Prop :=
  s1.calls = s.calls ++ new ∧ (∀ c ∈ new, c.ok = true) ∧ Chained s.qptr new ∧
    s1.qptr = s.qptr + consumed new ∧ ReadsIn I new

/-! The reference traversal: the container as the structural walker of the
specification sees it (the slots of the module iterator, the class table of
every accepted module, the method records of every class with class data),
and the framing of the quickening info -/

/-- A decoded method record: the cursor after the record and its code offset
(zero for a method without code). -/
structure MethodEntry where
  next : Nat
  codeOff : Nat
deriving DecidableEq

/-- The `n` method records decoded one after the other from `cur`. -/
def readMethods (D : Dex) (m : Mem) : Nat → Nat → List MethodEntry
  | 0, _ => []
  | n + 1, cur =>
    ⟨(D.dex_readClassDataMethod m cur).1, (D.dex_readClassDataMethod m cur).2.codeOff % U32⟩ ::
      readMethods D m n (D.dex_readClassDataMethod m cur).1

/-- The cursor after a run of method records that started at `cur`. -/
def endOf : Nat → List MethodEntry → Nat
  | cur, [] => cur
  | _, e :: l => endOf e.next l

/-- The class-data block of one class: the cursor after its header and all its
field records, its direct methods, its virtual methods. -/
structure ClassData where
  fieldsEnd : Nat
  direct : List MethodEntry
  virt : List MethodEntry
deriving DecidableEq

/-- Class-table entry `i`: nothing when its class-data offset is zero, else the
header is decoded, the static and then the instance field records are decoded
and dropped, then the direct and then the virtual method records are decoded. -/
def readClass (L : Layout) (D : Dex) (m : Mem) (dexFileBuf dexClassDefs i : Nat) :
    Option ClassData :=
  if rd32 m (dexClassDefs + i * L.sizeof_dexClassDef + L.off_classDataOff) = 0 then none
  else
    let h := D.dex_readClassDataHeader m
      (dexFileBuf + rd32 m (dexClassDefs + i * L.sizeof_dexClassDef + L.off_classDataOff))
    let c := (D.dex_readClassDataField m)^[h.2.instanceFieldsSize % U32]
      ((D.dex_readClassDataField m)^[h.2.staticFieldsSize % U32] h.1)
    some ⟨c, readMethods D m (h.2.directMethodsSize % U32) c,
      readMethods D m (h.2.virtualMethodsSize % U32)
        (endOf c (readMethods D m (h.2.directMethodsSize % U32) c))⟩

/-- One module: where it starts, where its class table is, its classes in table
order. -/
structure DexModule where
  start : Nat
  classDefs : Nat
  classes : List (Option ClassData)
deriving DecidableEq

def readModule (L : Layout) (D : Dex) (m : Mem) (dexFileBuf : Nat) : DexModule :=
  ⟨dexFileBuf, dexFileBuf + rd32 m (dexFileBuf + L.off_classDefsOff),
    (List.range (rd32 m (dexFileBuf + L.off_classDefsSize))).map
      (readClass L D m dexFileBuf (dexFileBuf + rd32 m (dexFileBuf + L.off_classDefsOff)))⟩

/-- One step of the module iterator: what it returned, where it left its cursor,
and the module when one was returned and its magic is valid. -/
structure Slot where
  dexBuf : Option Nat
  nextOffset : Nat
  module : Option DexModule
deriving DecidableEq

/-- The slots of `n` successive steps of the iterator from the cursor value
`offset`. -/
def readSlots (L : Layout) (D : Dex) (m : Mem) (cursor : Nat) : Nat → Nat → List Slot
  | 0, _ => []
  | n + 1, offset =>
    ⟨(vdex_GetNextDexFileData L m cursor offset).1,
     (vdex_GetNextDexFileData L m cursor offset).2,
     match (vdex_GetNextDexFileData L m cursor offset).1 with
     | none => none
     | some b => if D.dex_isValidDexMagic m b = true then some (readModule L D m b) else none⟩ ::
      readSlots L D m cursor n (vdex_GetNextDexFileData L m cursor offset).2

/-- The container: one slot for each of its `number_of_dex_files_` modules, the
iterator starting from its initial cursor value 0. -/
def readContainer (L : Layout) (D : Dex) (m : Mem) (cursor : Nat) : List Slot :=
  readSlots L D m cursor (rd32 m (cursor + L.off_number_of_dex_files_)) 0

/-- The code items of the methods with code among `l`, in order; `start` is the
address of the module. -/
def methodCodes (start : Nat) (l : List MethodEntry) : List Nat :=
  (l.filter (fun e => e.codeOff ≠ 0)).map (fun e => start + e.codeOff)

/-- The code items of a class: those of its direct methods, then those of its
virtual methods. -/
def classCodes (start : Nat) : Option ClassData → List Nat
  | none => []
  | some c => methodCodes start c.direct ++ methodCodes start c.virt

/-- The code items of a slot: those of its classes in table order when it holds
a module. -/
def slotCodes (sl : Slot) : List Nat :=
  match sl.module with
  | none => []
  | some md => md.classes.flatMap (classCodes md.start)

/-- The reference traversal: the code items of all methods with code, modules
in iterator order, classes in table order, direct before virtual methods. -/
def refTraversal (L : Layout) (D : Dex) (m : Mem) (cursor : Nat) : List Nat :=
  (readContainer L D m cursor).flatMap slotCodes

/-- The framing of the quickening info in the words of the specification: the
payload lengths of `k` records laid out back to back from `q`, each record a
4-byte length followed by that many payload bytes. -/
def recordLengths (m : Mem) : Nat → Nat → List Nat
  | 0, _ => []
  | k + 1, q => rd32 m q :: recordLengths m k (q + 4 + rd32 m q)

/-- The sum, over the methods with code in traversal order, of 4 + the payload
length of the record of the method. -/
def recordTotal (L : Layout) (D : Dex) (m : Mem) (cursor : Nat) : Nat :=
  ((recordLengths m (refTraversal L D m cursor).length
    (vdex_GetQuickeningInfo L m cursor)).map (fun n => 4 + n)).sum

/-! A concrete instance of the parameters and concrete containers.

The layout of the format version 006 (a 24-byte header, 4-byte checksums, the
Dalvik header with `fileSize` at 32, `classDefsSize` at 96, `classDefsOff` at
100, 32-byte class definitions with `classDataOff` at 24) and the Dalvik
`class_data_item` decoders (unsigned LEB128 numbers) -/

/-- Layout of the format version 006. -/
def stdLayout : Layout where
  sizeof_vdexHeader := 24
  sizeof_VdexChecksum := 4
  kVdexMagic := [118, 100, 101, 120]
  kVdexVersion := [48, 48, 54, 0]
  off_magic_ := 0
  off_version_ := 4
  off_number_of_dex_files_ := 8
  off_dex_size_ := 12
  off_verifier_deps_size_ := 16
  off_quickening_info_size_ := 20
  off_fileSize := 32
  off_classDefsSize := 96
  off_classDefsOff := 100
  sizeof_dexClassDef := 32
  off_classDataOff := 24

/-- Unsigned LEB128 number of at most `k` bytes at `p`: the address after it and
its value. -/
def readUleb128 (m : Mem) : Nat → Nat → Nat × Nat
  | 0, p => (p, 0)
  | k + 1, p =>
    if rd8 m p < 128 then (p + 1, rd8 m p)
    else
      let r := readUleb128 m k (p + 1)
      (r.1, rd8 m p % 128 + 128 * r.2)

/-- The Dalvik decoders together with a given instruction transform `tr`: the
magic is valid when the file starts with the four bytes 64 65 78 0a (hex), the
class-data header is four LEB128 numbers, a field record two, a method record
three of which the last is the code offset. -/
def lebDex (tr : Mem → Nat → Nat → Nat → Bool → Bool × Mem) : Dex where
  dex_isValidDexMagic := fun m p => bytesAt m p 4 == [100, 101, 120, 10]
  dex_readClassDataHeader := fun m p =>
    let a := readUleb128 m 5 p
    let b := readUleb128 m 5 a.1
    let c := readUleb128 m 5 b.1
    let d := readUleb128 m 5 c.1
    (d.1, ⟨a.2, b.2, c.2, d.2⟩)
  dex_readClassDataField := fun m p => (readUleb128 m 5 (readUleb128 m 5 p).1).1
  dex_readClassDataMethod := fun m p =>
    let c := readUleb128 m 5 (readUleb128 m 5 (readUleb128 m 5 p).1).1
    (c.1, ⟨c.2⟩)
  dex_DexcompileDriver := tr

/-- A transform that accepts every method and writes nothing. -/
def trAccept : Mem → Nat → Nat → Nat → Bool → Bool × Mem :=
  fun m _ _ _ _ => (true, m)

/-- A transform that rejects the code item at `c0`, accepts every other one and
writes nothing. -/
def trRejectAt (c0 : Nat) : Mem → Nat → Nat → Nat → Bool → Bool × Mem :=
  fun m c _ _ _ => (decide (c ≠ c0), m)

/-- A transform that rejects every method and overwrites the first byte of the
code item. -/
def trSpoil : Mem → Nat → Nat → Nat → Bool → Bool × Mem :=
  fun m c _ _ _ => (false, fun a => if a = c then 255 else m a)

/-- Memory image holding the listed bytes and zero elsewhere. -/
def memOf (l : List (Nat × Nat)) : Mem := fun a => (l.lookup a).getD 0

/-- The bytes of a little-endian `uint32_t` `v` at address `a`. -/
def put32 (a v : Nat) : List (Nat × Nat) :=
  [(a, v % 256), (a + 1, v / 256 % 256), (a + 2, v / 65536 % 256), (a + 3, v / 16777216 % 256)]

/-- The bytes `q` laid out from address `a` on. -/
def bytesFrom (a : Nat) (q : List Nat) : List (Nat × Nat) :=
  q.enum.map (fun x => (a + x.1, x.2))

/-- The header of a container: magic, version and the four counters. -/
def vdexHdr (files dexSize depsSize qsize : Nat) : List (Nat × Nat) :=
  [(0, 118), (1, 100), (2, 101), (3, 120), (4, 48), (5, 48), (6, 54), (7, 0)]
  ++ put32 8 files ++ put32 12 dexSize ++ put32 16 depsSize ++ put32 20 qsize

/-- A dex file at address `b` with the declared size `fileSize`, whose magic
starts with the byte `magic0` (100 for a valid one): one class, defined at
`b + 112`, whose class data at `b + 144` has no field and one direct method
with its code item at `b + 160`. -/
def miniDex (b fileSize magic0 : Nat) : List (Nat × Nat) :=
  [(b, magic0), (b + 1, 101), (b + 2, 120), (b + 3, 10),
   (b + 4, 48), (b + 5, 51), (b + 6, 53), (b + 7, 0)]
  ++ put32 (b + 32) fileSize ++ put32 (b + 96) 1 ++ put32 (b + 100) 112
  ++ put32 (b + 136) 144
  ++ [(b + 144, 0), (b + 145, 0), (b + 146, 1), (b + 147, 0),
      (b + 148, 0), (b + 149, 1), (b + 150, 160), (b + 151, 1)]

/-- A container with one dex file of 192 bytes at 28 that has one class with one
direct method whose code item is at 28 + 160.  `dex_size_` is 192 and
`verifier_deps_size_` is 64, so `vdex_GetQuickeningInfo` is `cursor + 256`;
the `quickening_info_size_` field is `qsize` and the bytes `q` follow from
address 256 on. -/
def oneMethod (qsize : Nat) (q : List Nat) : Mem :=
  memOf (vdexHdr 1 192 64 qsize ++ miniDex 28 192 100 ++ bytesFrom 256 q)

/-- A container with one dex file with three classes.  Class 0 has a static and
an instance field, the direct methods with code offsets 0 and 256 and a virtual
method with code offset 264; class 1 has no class data; class 2 has the virtual
methods with code offsets 0 and 272.  The dex file is at 28 and 288 bytes long,
`verifier_deps_size_` is 40, so `vdex_GetQuickeningInfo` is `cursor + 328`; the
quickening info there is 17 bytes: records with the payload lengths 2, 0, 3. -/
def threeMethods : Mem :=
  memOf (vdexHdr 1 288 40 17
    ++ [(28, 100), (29, 101), (30, 120), (31, 10), (32, 48), (33, 51), (34, 53), (35, 0)]
    ++ put32 60 288 ++ put32 124 3 ++ put32 128 112
    ++ put32 164 208 ++ put32 196 0 ++ put32 228 228
    ++ bytesFrom 236 [1, 1, 2, 1, 0, 1, 0, 1, 0, 1, 0, 1, 1, 128, 2, 0, 1, 136, 2]
    ++ bytesFrom 256 [0, 0, 0, 2, 0, 1, 0, 1, 1, 144, 2]
    ++ bytesFrom 328 [2, 0, 0, 0, 7, 7, 0, 0, 0, 0, 3, 0, 0, 0, 7, 7, 7])

/-- A transform that accepts every method and overwrites the first byte of the
code item with 255. -/
def trMark : Mem → Nat → Nat → Nat → Bool → Bool × Mem :=
  fun m c _ _ _ => (true, fun a => if a = c then 255 else m a)

/-- The container `threeMethods` after the first byte of some of its three code
items (at 284, 292 and 300) has been overwritten with 255. -/
def marked (b1 b2 b3 : Bool) : Mem :=
  fun a =>
    if a = 284 then (if b1 = true then 255 else threeMethods a)
    else if a = 292 then (if b2 = true then 255 else threeMethods a)
    else if a = 300 then (if b3 = true then 255 else threeMethods a)
    else threeMethods a

/-- The container `threeMethods` as the walker reads it. -/
def threeTree : List Slot :=
  [⟨some 28, 316, some ⟨28, 140,
    [some ⟨244, [⟨247, 0⟩, ⟨251, 256⟩], [⟨255, 264⟩]⟩, none,
     some ⟨260, [], [⟨263, 0⟩, ⟨267, 272⟩]⟩]⟩⟩]

/-- A container with two dex files of 192 bytes at 32 and 224; the first one has
a wrong magic.  The quickening info (at `cursor + 448`) is one record with a
1-byte payload. -/
def firstBadMagic : Mem :=
  memOf (vdexHdr 2 384 64 5 ++ miniDex 32 192 0 ++ miniDex 224 192 100
    ++ bytesFrom 448 [1, 0, 0, 0, 7])

/-- A container with three dex files of 192 bytes at 36, 228 and 420
(`dex_size_` is 576); the second one declares the size 65536.  The quickening
info (at `cursor + 640`) is 10 bytes: two records with a 1-byte payload. -/
def secondTooLong : Mem :=
  memOf (vdexHdr 3 576 64 10
    ++ miniDex 36 192 100 ++ miniDex 228 65536 100 ++ miniDex 420 192 100
    ++ bytesFrom 640 [1, 0, 0, 0, 7, 1, 0, 0, 0, 7])

/-- A container with two dex files; the first one, at 32, has a wrong magic and
declares the size `0xFFFFFFFF`. -/
def firstWraps : Mem :=
  memOf (vdexHdr 2 384 64 4 ++ miniDex 32 4294967295 0 ++ miniDex 224 192 100)

/-- A container whose header declares a modules section of `0xFFFFFFFF` bytes
and whose dex file at 28 declares the size `0xFFFFFFF0`. -/
def hugeSection : Mem :=
  memOf (vdexHdr 1 4294967295 0 4 ++ miniDex 28 4294967280 100)

/-- A transform that accepts every method and overwrites the first byte of the
code item with 0. -/
def trZero : Mem → Nat → Nat → Nat → Bool → Bool × Mem :=
  fun m c _ _ _ => (true, fun a => if a = c then 0 else m a)

/-- A container with two dex files declared, the first one at 32 with a valid
magic and the declared size `2^32 - 32`.  The quickening info (at
`cursor + 448`) is 10 bytes: two records with a 1-byte payload. -/
def firstReyielded : Mem :=
  memOf (vdexHdr 2 384 64 10 ++ miniDex 32 4294967264 100
    ++ bytesFrom 448 [1, 0, 0, 0, 7, 1, 0, 0, 0, 7])

/-- A container with one dex file of 224 bytes at 28 that has two classes with
one direct method each.  The code offset of the first method is 96, the offset
of the field `classDefsSize` in the header of the dex file; the code item of
the second method is at 28 + 200.  The quickening info (at `cursor + 288`) is
8 bytes: two records without payload. -/
def codeOnHeader : Mem :=
  memOf (vdexHdr 1 224 64 8
    ++ [(28, 100), (29, 101), (30, 120), (31, 10), (32, 48), (33, 51), (34, 53), (35, 0)]
    ++ put32 60 224 ++ put32 124 2 ++ put32 128 112
    ++ put32 164 176 ++ put32 196 184
    ++ bytesFrom 204 [0, 0, 1, 0, 0, 1, 96]
    ++ bytesFrom 212 [0, 0, 1, 0, 0, 1, 200, 1]
    ++ bytesFrom 288 [0, 0, 0, 0, 0, 0, 0, 0])

/-- A container without dex section: `number_of_dex_files_` and `dex_size_` are 0. -/
def noDexSection : Mem :=
  memOf (vdexHdr 0 0 64 4)

/-- A container with one dex file at 28 that declares the size 65536 while
`dex_size_` is 192.  The quickening info (at `cursor + 256`) is 5 bytes: one
record with a 1-byte payload. -/
def firstTooLong : Mem :=
  memOf (vdexHdr 1 192 64 5 ++ miniDex 28 65536 100 ++ bytesFrom 256 [1, 0, 0, 0, 7])

/-- A header whose `number_of_dex_files_` is `2^30`. -/
def manyChecksums : Mem :=
  memOf (vdexHdr 1073741824 192 64 0)

/-- A header followed by a table of two checksums, `0x11223344` and
`0x55667788`. -/
def twoChecksums : Mem :=
  memOf (vdexHdr 2 384 64 0 ++ put32 24 287454020 ++ put32 28 1432778632)

/-- A container with two dex files declared and a `dex_size_` of `0xFFFFFFFF`;
the first dex file, at 32, has a valid magic and declares the size `2^32 - 32`,
so that it ends inside the section.  The quickening info (at
`cursor + 0xFFFFFFFF + 64`) is 10 bytes: two records with a 1-byte payload. -/
def sectionToTheBrim : Mem :=
  memOf (vdexHdr 2 4294967295 64 10 ++ miniDex 32 4294967264 100
    ++ bytesFrom 4294967359 [1, 0, 0, 0, 7, 1, 0, 0, 0, 7])

/-! Lemmas -/

theorem rd8_lt (m : Mem) (a : Nat) : rd8 m a < 256 := Nat.mod_lt _ (by decide)

theorem rd32_lt (m : Mem) (a : Nat) : rd32 m a < U32 := by
  have h0 := rd8_lt m a
  have h1 := rd8_lt m (a + 1)
  have h2 := rd8_lt m (a + 2)
  have h3 := rd8_lt m (a + 3)
  unfold rd32 U32
  omega

/-- More iterations allowed change nothing once the bound covers a `uint32_t`
index: the class loop never stops for lack of fuel. -/
theorem classLoop_fuel (L : Layout) (D : Dex) (dexFileBuf dexClassDefs : Nat)
    (fuel i k : Nat) (s : St) (hfuel : U32 ≤ i + fuel) :
    classLoop L D dexFileBuf dexClassDefs (fuel + k) i s =
      classLoop L D dexFileBuf dexClassDefs fuel i s := by
  induction fuel generalizing i s with
  | zero =>
    have hlt := rd32_lt s.mem (dexFileBuf + L.off_classDefsSize)
    cases k with
    | zero => rfl
    | succ k =>
      rw [Nat.zero_add]
      unfold classLoop
      rw [if_neg (by omega)]
  | succ fuel ih =>
    rw [Nat.add_right_comm]
    unfold classLoop
    split
    · split
      · rfl
      · exact ih _ _ (by omega)
    · rfl

/-- More iterations allowed change nothing once the bound covers a `uint32_t`
index: the loop over the dex files never stops for lack of fuel. -/
theorem dexFileLoop_fuel (L : Layout) (D : Dex) (cursor e : Nat)
    (fuel idx offset k : Nat) (s : St) (hfuel : U32 ≤ idx + fuel) :
    dexFileLoop L D cursor e (fuel + k) idx offset s =
      dexFileLoop L D cursor e fuel idx offset s := by
  induction fuel generalizing idx offset s with
  | zero =>
    have hlt := rd32_lt s.mem (cursor + L.off_number_of_dex_files_)
    cases k with
    | zero => rfl
    | succ k =>
      rw [Nat.zero_add]
      unfold dexFileLoop
      rw [if_neg (by omega)]
  | succ fuel ih =>
    rw [Nat.add_right_comm]
    unfold dexFileLoop
    split
    · simp only
      split
      · exact ih _ _ _ (by omega)
      · split
        · exact ih _ _ _ (by omega)
        · split
          · rfl
          · exact ih _ _ _ (by omega)
    · rfl

theorem consumed_append (a b : List Call) : consumed (a ++ b) = consumed a + consumed b := by
  simp [consumed, List.map_append, List.sum_append]

theorem chained_append (a b : List Call) (q : Nat) :
    Chained q (a ++ b) ↔ Chained q a ∧ Chained (q + consumed a) b := by
  induction a generalizing q with
  | nil => simp [Chained, consumed]
  | cons c cs ih =>
    have key : c.qptr = q + 4 →
        q + consumed (c :: cs) = c.qptr + c.qsize + consumed cs := by
      intro h1
      simp [consumed, h1]; omega
    show (c.qptr = q + 4 ∧ Chained (c.qptr + c.qsize) (cs ++ b)) ↔
      (c.qptr = q + 4 ∧ Chained (c.qptr + c.qsize) cs) ∧ Chained (q + consumed (c :: cs)) b
    rw [ih]
    constructor
    · rintro ⟨h1, h2, h3⟩
      rw [key h1]
      exact ⟨⟨h1, h2⟩, h3⟩
    · rintro ⟨⟨h1, h2⟩, h3⟩
      rw [key h1] at h3
      exact ⟨h1, h2, h3⟩

theorem chained_bounds (l : List Call) (q : Nat) (h : Chained q l) (c : Call) (hc : c ∈ l) :
    q + 4 ≤ c.qptr ∧ c.qptr + c.qsize ≤ q + consumed l := by
  induction l generalizing q with
  | nil => simp at hc
  | cons d ds ih =>
    obtain ⟨h1, h2⟩ := h
    have hsum : q + consumed (d :: ds) = d.qptr + d.qsize + consumed ds := by
      simp [consumed, h1]; omega
    rcases List.mem_cons.1 hc with rfl | hmem
    · constructor
      · omega
      · omega
    · have := ih _ h2 hmem
      constructor
      · omega
      · omega

theorem good_refl (s : St) : Good s s :=
  ⟨[], by simp, by simp, trivial, by simp [consumed]⟩

theorem good_trans {s s1 s2 : St} (h1 : Good s s1) (h2 : Good s1 s2) : Good s s2 := by
  obtain ⟨a, ha1, ha2, ha3, ha4⟩ := h1
  obtain ⟨b, hb1, hb2, hb3, hb4⟩ := h2
  refine ⟨a ++ b, ?_, ?_, ?_, ?_⟩
  · rw [hb1, ha1, List.append_assoc]
  · intro c hc
    rcases List.mem_append.1 hc with h | h
    · exact ha2 c h
    · exact hb2 c h
  · rw [chained_append]; rw [ha4] at hb3; exact ⟨ha3, hb3⟩
  · rw [hb4, ha4, consumed_append, Nat.add_assoc]

theorem good_bad {s s1 s2 : St} (h1 : Good s s1) (h2 : Bad s1 s2) : Bad s s2 := by
  obtain ⟨a, ha1, ha2, ha3, ha4⟩ := h1
  obtain ⟨b, c, hb1, hb2, hc, hb3, hb4⟩ := h2
  refine ⟨a ++ b, c, ?_, ?_, hc, ?_, hb4⟩
  · rw [hb1, ha1]; simp [List.append_assoc]
  · intro x hx
    rcases List.mem_append.1 hx with h | h
    · exact ha2 x h
    · exact hb2 x h
  · rw [List.append_assoc, chained_append]; rw [ha4] at hb3; exact ⟨ha3, hb3⟩

theorem flowOk_trans {α : Type} {s s1 : St} (h1 : Good s s1) (f : Flow α) (h2 : FlowOk s1 f) :
    FlowOk s f := by
  cases f with
  | next a s2 => exact good_trans h1 h2
  | fail s2 => exact good_bad h1 h2

theorem methodLoop_flowOk (D : Dex) (dexFileBuf : Nat) (n cur : Nat) (s : St) :
    FlowOk s (methodLoop D dexFileBuf n cur s) := by
  induction n generalizing cur s with
  | zero => exact good_refl s
  | succ n ih =>
    unfold methodLoop
    simp only
    split
    · exact ih _ _
    · split
      · refine ⟨[], _, rfl, by simp, rfl, ?_, rfl⟩
        simp [Chained]
      · refine flowOk_trans ?_ _ (ih _ _)
        refine ⟨[_], rfl, ?_, ?_, ?_⟩
        · simp
        · simp [Chained]
        · simp [consumed]; omega

theorem classBody_flowOk (L : Layout) (D : Dex) (dexFileBuf dexClassDefs i : Nat) (s : St) :
    FlowOk s (classBody L D dexFileBuf dexClassDefs i s) := by
  unfold classBody
  simp only
  split
  · exact good_refl s
  · have h1 := methodLoop_flowOk D dexFileBuf
      ((D.dex_readClassDataHeader s.mem (dexFileBuf + rd32 s.mem
        (dexClassDefs + i * L.sizeof_dexClassDef + L.off_classDataOff))).2.directMethodsSize % U32)
      (fieldLoop D s.mem ((D.dex_readClassDataHeader s.mem (dexFileBuf + rd32 s.mem
        (dexClassDefs + i * L.sizeof_dexClassDef + L.off_classDataOff))).2.instanceFieldsSize % U32)
        (fieldLoop D s.mem ((D.dex_readClassDataHeader s.mem (dexFileBuf + rd32 s.mem
        (dexClassDefs + i * L.sizeof_dexClassDef + L.off_classDataOff))).2.staticFieldsSize % U32)
        (D.dex_readClassDataHeader s.mem (dexFileBuf + rd32 s.mem
        (dexClassDefs + i * L.sizeof_dexClassDef + L.off_classDataOff))).1)) s
    split
    · rename_i s1 heq
      rw [heq] at h1; exact h1
    · rename_i c3 s1 heq
      rw [heq] at h1
      have h2 := methodLoop_flowOk D dexFileBuf
        ((D.dex_readClassDataHeader s.mem (dexFileBuf + rd32 s.mem
          (dexClassDefs + i * L.sizeof_dexClassDef + L.off_classDataOff))).2.virtualMethodsSize % U32)
        c3 s1
      split
      · rename_i s2 heq2
        rw [heq2] at h2; exact good_bad h1 h2
      · rename_i x s2 heq2
        rw [heq2] at h2; exact good_trans h1 h2

theorem classLoop_flowOk (L : Layout) (D : Dex) (dexFileBuf dexClassDefs : Nat)
    (fuel i : Nat) (s : St) :
    FlowOk s (classLoop L D dexFileBuf dexClassDefs fuel i s) := by
  induction fuel generalizing i s with
  | zero => exact good_refl s
  | succ fuel ih =>
    unfold classLoop
    split
    · have h1 := classBody_flowOk L D dexFileBuf dexClassDefs i s
      split
      · rename_i s1 heq
        rw [heq] at h1; exact h1
      · rename_i x s1 heq
        rw [heq] at h1
        exact flowOk_trans h1 _ (ih _ _)
    · exact good_refl s

theorem good_of_eq {s s1 : St} (hc : s1.calls = s.calls) (hq : s1.qptr = s.qptr) : Good s s1 :=
  ⟨[], by simp [hc], by simp, trivial, by simp [consumed, hq]⟩

theorem resultOk_trans {s s1 : St} {e : Nat} {r : Result} (h1 : Good s s1)
    (h2 : ResultOk s1 e r) : ResultOk s e r := by
  constructor
  · intro h
    exact ⟨good_trans h1 (h2.1 h).1, (h2.1 h).2⟩
  · intro h
    rcases h2.2 h with hb | ⟨hg, hne⟩
    · exact Or.inl (good_bad h1 hb)
    · exact Or.inr ⟨good_trans h1 hg, hne⟩

theorem finalCheck_resultOk (e : Nat) (s : St) : ResultOk s e (finalCheck e s) := by
  unfold finalCheck
  split
  · rename_i h
    exact ⟨fun h1 => by simp at h1, fun _ => Or.inr ⟨good_refl s, h⟩⟩
  · rename_i h
    exact ⟨fun _ => ⟨good_refl s, not_not.1 h⟩, fun h1 => by simp at h1⟩

theorem dexFileLoop_resultOk (L : Layout) (D : Dex) (cursor e : Nat)
    (fuel idx offset : Nat) (s : St) :
    ResultOk s e (dexFileLoop L D cursor e fuel idx offset s) := by
  induction fuel generalizing idx offset s with
  | zero => exact finalCheck_resultOk e s
  | succ fuel ih =>
    unfold dexFileLoop
    split
    · simp only
      split
      · exact resultOk_trans (good_of_eq rfl rfl) (ih _ _ _)
      · rename_i dexFileBuf heq
        split
        · exact resultOk_trans (good_of_eq rfl rfl) (ih _ _ _)
        · split
          · rename_i s2 hcl
            have h := classLoop_flowOk L D dexFileBuf
              (dexFileBuf + rd32 s.mem (dexFileBuf + L.off_classDefsOff)) U32 0
              { s with iters := s.iters ++
                  [⟨offset, (vdex_GetNextDexFileData L s.mem cursor offset).1,
                    (vdex_GetNextDexFileData L s.mem cursor offset).2⟩] }
            rw [hcl] at h
            exact ⟨fun h1 => by simp at h1, fun _ => Or.inl (good_bad (good_of_eq rfl rfl) h)⟩
          · rename_i x s2 hcl
            have h := classLoop_flowOk L D dexFileBuf
              (dexFileBuf + rd32 s.mem (dexFileBuf + L.off_classDefsOff)) U32 0
              { s with iters := s.iters ++
                  [⟨offset, (vdex_GetNextDexFileData L s.mem cursor offset).1,
                    (vdex_GetNextDexFileData L s.mem cursor offset).2⟩] }
            rw [hcl] at h
            exact resultOk_trans (good_trans (good_of_eq rfl rfl) h) (ih _ _ _)
    · exact finalCheck_resultOk e s

theorem unquicken_resultOk (L : Layout) (D : Dex) (m : Mem) (cursor : Nat)
    (hq : vdex_GetQuickeningInfoSize L m cursor ≠ 0) :
    ResultOk (initSt L m cursor)
      (vdex_GetQuickeningInfo L m cursor + vdex_GetQuickeningInfoSize L m cursor)
      (vdex_Unquicken L D m cursor) := by
  unfold vdex_Unquicken
  rw [if_neg hq]
  exact dexFileLoop_resultOk L D cursor _ U32 0 0 _

theorem fieldLoop_eq_iterate (D : Dex) (m : Mem) (n cur : Nat) :
    fieldLoop D m n cur = (D.dex_readClassDataField m)^[n] cur := by
  induction n generalizing cur with
  | zero => rfl
  | succ n ih => simp [fieldLoop, ih, Function.iterate_succ]

theorem readMethods_length (D : Dex) (m : Mem) (n cur : Nat) :
    (readMethods D m n cur).length = n := by
  induction n generalizing cur with
  | zero => rfl
  | succ n ih => simp [readMethods, ih]

theorem readSlots_length (L : Layout) (D : Dex) (m : Mem) (cursor n offset : Nat) :
    (readSlots L D m cursor n offset).length = n := by
  induction n generalizing offset with
  | zero => rfl
  | succ n ih => simp [readSlots, ih]

theorem walk_refl (I : Mem → Prop) (s : St) : Walk I s s [] :=
  ⟨by simp, by simp, trivial, by simp [consumed], by intro c hc; simp at hc⟩

theorem walk_of_eq (I : Mem → Prop) {s s1 : St} (hc : s1.calls = s.calls)
    (hq : s1.qptr = s.qptr) : Walk I s s1 [] :=
  ⟨by simp [hc], by simp, trivial, by simp [consumed, hq], by intro c hc; simp at hc⟩

theorem walk_trans (I : Mem → Prop) {s s1 s2 : St} {a b : List Call}
    (h1 : Walk I s s1 a) (h2 : Walk I s1 s2 b) : Walk I s s2 (a ++ b) := by
  obtain ⟨ha1, ha2, ha3, ha4, ha5⟩ := h1
  obtain ⟨hb1, hb2, hb3, hb4, hb5⟩ := h2
  refine ⟨?_, ?_, ?_, ?_, ?_⟩
  · rw [hb1, ha1, List.append_assoc]
  · intro c hc
    rcases List.mem_append.1 hc with h | h
    · exact ha2 c h
    · exact hb2 c h
  · rw [chained_append]; rw [ha4] at hb3; exact ⟨ha3, hb3⟩
  · rw [hb4, ha4, consumed_append, Nat.add_assoc]
  · intro c hc
    rcases List.mem_append.1 hc with h | h
    · exact ha5 c h
    · exact hb5 c h

/-- The method loop on a memory whose method records stay as they are. -/
theorem methodLoop_static (D : Dex) (I : Mem → Prop) (C : List Nat)
    (hok : ∀ m1 c p n b, (D.dex_DexcompileDriver m1 c p n b).1 = true)
    (hI : ∀ m1 c p n b, I m1 → c ∈ C → I (D.dex_DexcompileDriver m1 c p n b).2)
    (buf : Nat) (n cur : Nat) (s : St) (l : List MethodEntry)
    (hs : I s.mem) (hread : ∀ m1, I m1 → readMethods D m1 n cur = l)
    (hC : ∀ c ∈ methodCodes buf l, c ∈ C) :
    ∃ s1 new, methodLoop D buf n cur s = Flow.next (endOf cur l) s1 ∧ I s1.mem ∧
      Walk I s s1 new ∧ new.map Call.code = methodCodes buf l ∧
      s1.iters = s.iters := by
  induction n generalizing cur s l with
  | zero =>
    have h0 := hread s.mem hs
    simp only [readMethods] at h0
    subst h0
    exact ⟨s, [], rfl, hs, walk_refl I s, by simp [methodCodes], rfl⟩
  | succ n ih =>
    have h0 := hread s.mem hs
    simp only [readMethods] at h0
    obtain ⟨e, l1, rfl⟩ : ∃ e l1, l = e :: l1 := ⟨_, _, h0.symm⟩
    injection h0 with he hl
    have hnext : ∀ m1, I m1 → readMethods D m1 n e.next = l1 := by
      intro m1 h1
      have h2 := hread m1 h1
      simp only [readMethods] at h2
      injection h2 with h3 h4
      have h5 : (D.dex_readClassDataMethod m1 cur).1 = e.next := by rw [← h3]
      rw [← h5]; exact h4
    have hco : (D.dex_readClassDataMethod s.mem cur).2.codeOff % U32 = e.codeOff := by rw [← he]
    have hnx : (D.dex_readClassDataMethod s.mem cur).1 = e.next := by rw [← he]
    unfold methodLoop
    simp only
    rw [hco, hnx]
    by_cases hz : e.codeOff = 0
    · rw [if_pos hz]
      have hcodes : methodCodes buf (e :: l1) = methodCodes buf l1 := by
        simp [methodCodes, List.filter_cons, hz]
      obtain ⟨s1, new, h1, h2, h3, h4, h5⟩ := ih e.next s l1 hs hnext
        (by intro c hc; apply hC; rw [hcodes]; exact hc)
      exact ⟨s1, new, h1, h2, h3, by rw [hcodes]; exact h4, h5⟩
    · rw [if_neg hz]
      have hcodes : methodCodes buf (e :: l1) = (buf + e.codeOff) :: methodCodes buf l1 := by
        simp [methodCodes, List.filter_cons, hz]
      have hmem : buf + e.codeOff ∈ C := by apply hC; rw [hcodes]; simp
      rw [if_neg (by rw [hok]; simp)]
      obtain ⟨s1, new, h1, h2, h3, h4, h5⟩ := ih e.next
        { s with mem := (D.dex_DexcompileDriver s.mem (buf + e.codeOff) (s.qptr + 4)
                          (rd8 s.mem s.qptr) true).2,
                 qptr := s.qptr + 4 + rd8 s.mem s.qptr,
                 calls := s.calls ++ [⟨buf + e.codeOff, s.qptr + 4, rd8 s.mem s.qptr, true⟩] }
        l1 (hI _ _ _ _ _ hs hmem) hnext
        (by intro c hc; apply hC; rw [hcodes]; exact List.mem_cons_of_mem _ hc)
      have hone : Walk I s
          { s with mem := (D.dex_DexcompileDriver s.mem (buf + e.codeOff) (s.qptr + 4)
                            (rd8 s.mem s.qptr) true).2,
                   qptr := s.qptr + 4 + rd8 s.mem s.qptr,
                   calls := s.calls ++ [⟨buf + e.codeOff, s.qptr + 4, rd8 s.mem s.qptr, true⟩] }
          [⟨buf + e.codeOff, s.qptr + 4, rd8 s.mem s.qptr, true⟩] := by
        refine ⟨rfl, by simp, by simp [Chained], by simp [consumed]; omega, ?_⟩
        intro c hc
        rw [List.mem_singleton.1 hc]
        exact ⟨s.mem, hs, by simp⟩
      refine ⟨s1, _ :: new, h1, h2, walk_trans I hone h3, ?_, h5⟩
      rw [hcodes]; simp [h4]

theorem readClass_some (L : Layout) (D : Dex) (m : Mem) (buf defs i : Nat) (cd : ClassData)
    (h : readClass L D m buf defs i = some cd) :
    readMethods D m cd.direct.length cd.fieldsEnd = cd.direct ∧
    readMethods D m cd.virt.length (endOf cd.fieldsEnd cd.direct) = cd.virt := by
  unfold readClass at h
  split at h
  · exact absurd h (by simp)
  · simp only [Option.some.injEq] at h
    subst h
    simp [readMethods_length]

theorem classBody_of_none (L : Layout) (D : Dex) (buf defs i : Nat) (s : St)
    (h : readClass L D s.mem buf defs i = none) :
    classBody L D buf defs i s = Flow.next () s := by
  unfold readClass at h
  unfold classBody
  split at h
  · rename_i hz
    simp only
    rw [if_pos hz]
  · exact absurd h (by simp)

theorem classBody_of_some (L : Layout) (D : Dex) (buf defs i : Nat) (s : St) (cd : ClassData)
    (h : readClass L D s.mem buf defs i = some cd) :
    classBody L D buf defs i s =
      match methodLoop D buf cd.direct.length cd.fieldsEnd s with
      | Flow.fail s1 => Flow.fail s1
      | Flow.next c3 s1 =>
        match methodLoop D buf cd.virt.length c3 s1 with
        | Flow.fail s2 => Flow.fail s2
        | Flow.next _ s2 => Flow.next () s2 := by
  unfold readClass at h
  unfold classBody
  split at h
  · exact absurd h (by simp)
  · rename_i hz
    simp only [Option.some.injEq] at h
    subst h
    simp only
    rw [if_neg hz]
    simp only [fieldLoop_eq_iterate, readMethods_length]

/-- The body of the class loop on a memory whose class data stays as it is. -/
theorem classBody_static (L : Layout) (D : Dex) (I : Mem → Prop) (C : List Nat)
    (hok : ∀ m1 c p n b, (D.dex_DexcompileDriver m1 c p n b).1 = true)
    (hI : ∀ m1 c p n b, I m1 → c ∈ C → I (D.dex_DexcompileDriver m1 c p n b).2)
    (buf defs i : Nat) (s : St) (cd : Option ClassData)
    (hs : I s.mem) (hread : ∀ m1, I m1 → readClass L D m1 buf defs i = cd)
    (hC : ∀ c ∈ classCodes buf cd, c ∈ C) :
    ∃ s1 new, classBody L D buf defs i s = Flow.next () s1 ∧ I s1.mem ∧
      Walk I s s1 new ∧ new.map Call.code = classCodes buf cd ∧
      s1.iters = s.iters := by
  cases cd with
  | none =>
    rw [classBody_of_none L D buf defs i s (hread s.mem hs)]
    exact ⟨s, [], rfl, hs, walk_refl I s, by simp [classCodes], rfl⟩
  | some cd =>
    rw [classBody_of_some L D buf defs i s cd (hread s.mem hs)]
    obtain ⟨s1, n1, h1, h2, h3, h4, h5⟩ := methodLoop_static D I C hok hI buf cd.direct.length
      cd.fieldsEnd s cd.direct hs
      (fun m1 hm => (readClass_some L D m1 buf defs i cd (hread m1 hm)).1)
      (by intro c hc; apply hC; simp [classCodes, hc])
    obtain ⟨s2, n2, g1, g2, g3, g4, g5⟩ := methodLoop_static D I C hok hI buf cd.virt.length
      (endOf cd.fieldsEnd cd.direct) s1 cd.virt h2
      (fun m1 hm => (readClass_some L D m1 buf defs i cd (hread m1 hm)).2)
      (by intro c hc; apply hC; simp [classCodes, hc])
    rw [h1]
    simp only
    rw [g1]
    refine ⟨s2, n1 ++ n2, rfl, g2, walk_trans I h3 g3, ?_, by rw [g5, h5]⟩
    rw [List.map_append, h4, g4]; rfl

/-- The class loop on a memory whose class table stays as it is. -/
theorem classLoop_static (L : Layout) (D : Dex) (I : Mem → Prop) (C : List Nat)
    (hok : ∀ m1 c p n b, (D.dex_DexcompileDriver m1 c p n b).1 = true)
    (hI : ∀ m1 c p n b, I m1 → c ∈ C → I (D.dex_DexcompileDriver m1 c p n b).2)
    (buf defs : Nat) (cls : List (Option ClassData))
    (hread : ∀ m1, I m1 →
      (List.range (rd32 m1 (buf + L.off_classDefsSize))).map (readClass L D m1 buf defs) = cls)
    (fuel i : Nat) (s : St) (hs : I s.mem) (hfuel : U32 ≤ i + fuel)
    (hC : ∀ c ∈ (cls.drop i).flatMap (classCodes buf), c ∈ C) :
    ∃ s1 new, classLoop L D buf defs fuel i s = Flow.next () s1 ∧ I s1.mem ∧
      Walk I s s1 new ∧ new.map Call.code = (cls.drop i).flatMap (classCodes buf) ∧
      s1.iters = s.iters := by
  have hlen : ∀ m1, I m1 → rd32 m1 (buf + L.off_classDefsSize) = cls.length := by
    intro m1 hm
    have := congrArg List.length (hread m1 hm)
    simpa using this
  have hget : ∀ m1, I m1 → ∀ j, j < cls.length → readClass L D m1 buf defs j = cls.getD j none := by
    intro m1 hm j hj
    have h1 := hread m1 hm
    have h2 : ((List.range (rd32 m1 (buf + L.off_classDefsSize))).map
        (readClass L D m1 buf defs)).getD j none = cls.getD j none := by rw [h1]
    rw [← h2]
    have hj2 : j < rd32 m1 (buf + L.off_classDefsSize) := by rw [hlen m1 hm]; exact hj
    simp [List.getD, hj2]
  induction fuel generalizing i s with
  | zero =>
    have h1 := hlen s.mem hs
    have h2 := rd32_lt s.mem (buf + L.off_classDefsSize)
    have h3 : cls.drop i = [] := List.drop_eq_nil_of_le (by omega)
    exact ⟨s, [], rfl, hs, walk_refl I s, by simp [h3], rfl⟩
  | succ fuel ih =>
    unfold classLoop
    rw [hlen s.mem hs]
    by_cases hi : i < cls.length
    · rw [if_pos hi]
      have hdrop : cls.drop i = cls.getD i none :: cls.drop (i + 1) := by
        rw [List.drop_eq_getElem_cons hi]
        simp [List.getD, hi]
      obtain ⟨s1, n1, h1, h2, h3, h4, h5⟩ := classBody_static L D I C hok hI buf defs i s
        (cls.getD i none) hs (fun m1 hm => hget m1 hm i hi)
        (by intro c hc; apply hC; rw [hdrop, List.flatMap_cons]
            exact List.mem_append_left _ hc)
      obtain ⟨s2, n2, g1, g2, g3, g4, g5⟩ := ih (i + 1) s1 h2 (by omega)
        (by intro c hc; apply hC; rw [hdrop, List.flatMap_cons]
            exact List.mem_append_right _ hc)
      rw [h1]
      simp only
      rw [g1]
      refine ⟨s2, n1 ++ n2, rfl, g2, walk_trans I h3 g3, ?_, by rw [g5, h5]⟩
      rw [List.map_append, h4, g4, hdrop, List.flatMap_cons]
    · rw [if_neg hi]
      have h3 : cls.drop i = [] := List.drop_eq_nil_of_le (by omega)
      exact ⟨s, [], rfl, hs, walk_refl I s, by simp [h3], rfl⟩

theorem finalCheck_toSt (e : Nat) (s : St) : (finalCheck e s).toSt = s := by
  unfold finalCheck
  split <;> rfl

theorem readSlots_succ (L : Layout) (D : Dex) (m : Mem) (cursor n offset : Nat) :
    readSlots L D m cursor (n + 1) offset =
      ⟨(vdex_GetNextDexFileData L m cursor offset).1,
       (vdex_GetNextDexFileData L m cursor offset).2,
       match (vdex_GetNextDexFileData L m cursor offset).1 with
       | none => none
       | some b => if D.dex_isValidDexMagic m b = true then some (readModule L D m b) else none⟩ ::
        readSlots L D m cursor n (vdex_GetNextDexFileData L m cursor offset).2 := rfl

/-- The loop over the dex files on a memory whose structure stays as it is. -/
theorem dexFileLoop_static (L : Layout) (D : Dex) (I : Mem → Prop) (C : List Nat)
    (hok : ∀ m1 c p n b, (D.dex_DexcompileDriver m1 c p n b).1 = true)
    (hI : ∀ m1 c p n b, I m1 → c ∈ C → I (D.dex_DexcompileDriver m1 c p n b).2)
    (cursor e N : Nat) (fuel idx offset : Nat) (s : St) (sl : List Slot)
    (hs : I s.mem)
    (hread : ∀ m1, I m1 → rd32 m1 (cursor + L.off_number_of_dex_files_) = N ∧
      readSlots L D m1 cursor (N - idx) offset = sl)
    (hfuel : U32 ≤ idx + fuel)
    (hC : ∀ c ∈ sl.flatMap slotCodes, c ∈ C) :
    ∃ s1 new, dexFileLoop L D cursor e fuel idx offset s = finalCheck e s1 ∧ I s1.mem ∧
      Walk I s s1 new ∧ new.map Call.code = sl.flatMap slotCodes := by
  have hN : N < U32 := by
    rw [← (hread s.mem hs).1]; exact rd32_lt _ _
  induction fuel generalizing idx offset s sl with
  | zero =>
    have h0 := (hread s.mem hs).2
    have hz : N - idx = 0 := by omega
    rw [hz] at h0
    simp only [readSlots] at h0
    subst h0
    exact ⟨s, [], rfl, hs, walk_refl I s, rfl⟩
  | succ fuel ih =>
    unfold dexFileLoop
    rw [(hread s.mem hs).1]
    by_cases hi : idx < N
    · rw [if_pos hi]
      have hk : N - idx = (N - (idx + 1)) + 1 := by omega
      have h0 := (hread s.mem hs).2
      rw [hk, readSlots_succ] at h0
      obtain ⟨hd, tl, rfl⟩ : ∃ hd tl, sl = hd :: tl := ⟨_, _, h0.symm⟩
      injection h0 with hhd htl
      have hm1 : ∀ m1, I m1 →
          (vdex_GetNextDexFileData L m1 cursor offset).1 = hd.dexBuf ∧
          (vdex_GetNextDexFileData L m1 cursor offset).2 = hd.nextOffset ∧
          (match (vdex_GetNextDexFileData L m1 cursor offset).1 with
           | none => none
           | some b => if D.dex_isValidDexMagic m1 b = true then some (readModule L D m1 b)
                       else none) = hd.module ∧
          readSlots L D m1 cursor (N - (idx + 1)) hd.nextOffset = tl := by
        intro m1 hm
        have h1 := (hread m1 hm).2
        rw [hk, readSlots_succ] at h1
        injection h1 with h2 h3
        have h4 : (vdex_GetNextDexFileData L m1 cursor offset).2 = hd.nextOffset := by rw [← h2]
        refine ⟨by rw [← h2], h4, by rw [← h2], ?_⟩
        rw [← h4]; exact h3
      have hnext : ∀ m1, I m1 → rd32 m1 (cursor + L.off_number_of_dex_files_) = N ∧
          readSlots L D m1 cursor (N - (idx + 1)) hd.nextOffset = tl :=
        fun m1 hm => ⟨(hread m1 hm).1, (hm1 m1 hm).2.2.2⟩
      have hCtl : ∀ c ∈ tl.flatMap slotCodes, c ∈ C := by
        intro c hc; apply hC; rw [List.flatMap_cons]; exact List.mem_append_right _ hc
      obtain ⟨g1, g2, g3, _⟩ := hm1 s.mem hs
      simp only
      rw [g2]
      cases hb : (vdex_GetNextDexFileData L s.mem cursor offset).1 with
      | none =>
        rw [hb] at g3
        simp only at g3
        have hcodes : slotCodes hd = [] := by simp [slotCodes, ← g3]
        simp only
        obtain ⟨s1, new, r1, r2, r3, r4⟩ := ih (idx + 1) hd.nextOffset
          { s with iters := s.iters ++ [⟨offset, none, hd.nextOffset⟩] } tl hs hnext
          (by omega) hCtl
        refine ⟨s1, new, r1, r2, ?_, ?_⟩
        · have := walk_trans I (walk_of_eq I rfl rfl) r3
          simpa using this
        · rw [r4, List.flatMap_cons, hcodes, List.nil_append]
      | some b =>
        rw [hb] at g3
        simp only at g3
        simp only
        by_cases hmag : D.dex_isValidDexMagic s.mem b = true
        · have hmag2 : ¬ (D.dex_isValidDexMagic s.mem b = false) := by simp [hmag]
          rw [if_neg hmag2]
          rw [if_pos hmag] at g3
          have hcodes : slotCodes hd =
              (readModule L D s.mem b).classes.flatMap (classCodes b) := by
            simp [slotCodes, ← g3, readModule]
          have hcl : ∀ m1, I m1 →
              (List.range (rd32 m1 (b + L.off_classDefsSize))).map
                (readClass L D m1 b (b + rd32 s.mem (b + L.off_classDefsOff))) =
              (readModule L D s.mem b).classes := by
            intro m1 hm
            obtain ⟨k1, _, k3, _⟩ := hm1 m1 hm
            rw [k1, ← g1, hb] at k3
            simp only at k3
            rw [← g3] at k3
            split at k3
            · simp only [Option.some.injEq] at k3
              have e1 := congrArg DexModule.classDefs k3
              have e2 := congrArg DexModule.classes k3
              simp only [readModule] at e1 e2
              rw [e1] at e2
              simpa [readModule] using e2
            · exact absurd k3 (by simp)
          obtain ⟨s2, n1, c1, c2, c3, c4, c5⟩ := classLoop_static L D I C hok hI b
            (b + rd32 s.mem (b + L.off_classDefsOff)) (readModule L D s.mem b).classes hcl
            U32 0
            { s with iters := s.iters ++
                [⟨offset, some b, hd.nextOffset⟩] }
            hs (by omega)
            (by intro c hc; apply hC; rw [List.flatMap_cons, hcodes]
                exact List.mem_append_left _ (by simpa using hc))
          rw [c1]
          simp only
          obtain ⟨s1, n2, r1, r2, r3, r4⟩ :=
            ih (idx + 1) hd.nextOffset s2 tl c2 hnext (by omega) hCtl
          refine ⟨s1, n1 ++ n2, r1, r2, ?_, ?_⟩
          · have := walk_trans I (walk_trans I (walk_of_eq I rfl rfl) c3) r3
            simpa using this
          · rw [List.map_append, c4, r4, List.flatMap_cons, hcodes]
            simp
        · have hmag2 : D.dex_isValidDexMagic s.mem b = false := by simpa using hmag
          rw [if_pos hmag2]
          rw [if_neg hmag] at g3
          have hcodes : slotCodes hd = [] := by simp [slotCodes, ← g3]
          obtain ⟨s1, new, r1, r2, r3, r4⟩ := ih (idx + 1) hd.nextOffset
            { s with iters := s.iters ++ [⟨offset, some b, hd.nextOffset⟩] } tl hs hnext
            (by omega) hCtl
          refine ⟨s1, new, r1, r2, ?_, ?_⟩
          · have := walk_trans I (walk_of_eq I rfl rfl) r3
            simpa using this
          · rw [r4, List.flatMap_cons, hcodes, List.nil_append]
    · rw [if_neg hi]
      have h0 := (hread s.mem hs).2
      have hz : N - idx = 0 := by omega
      rw [hz] at h0
      simp only [readSlots] at h0
      subst h0
      exact ⟨s, [], rfl, hs, walk_refl I s, rfl⟩

theorem rd32_eq_rd8_of_lt (m : Mem) (a : Nat) (h : rd32 m a < 256) : rd32 m a = rd8 m a := by
  unfold rd32 at h ⊢
  omega

/-- Calls that take their records back to back from `q`, with lengths read from
bytes that are those of `m`, consume what the framing of the specification
gives, as long as every length is below 256. -/
theorem consumed_eq_records (I : Mem → Prop) (m : Mem) (lo hi : Nat)
    (hquick : ∀ m1, I m1 → ∀ a, lo ≤ a → a < hi → rd8 m1 a = rd8 m a)
    (new : List Call) (q : Nat) (hch : Chained q new) (hrd : ReadsIn I new) (hlo : lo ≤ q)
    (hsmall : ∀ n ∈ recordLengths m new.length q, n < 256)
    (hhi : q + ((recordLengths m new.length q).map (fun n => 4 + n)).sum ≤ hi) :
    consumed new = ((recordLengths m new.length q).map (fun n => 4 + n)).sum := by
  induction new generalizing q with
  | nil => simp [consumed, recordLengths]
  | cons c cs ih =>
    obtain ⟨h1, h2⟩ := hch
    simp only [List.length_cons, recordLengths, List.map_cons, List.sum_cons] at hsmall hhi ⊢
    obtain ⟨m1, hm1, hsz⟩ := hrd c (List.mem_cons_self _ _)
    have hq : c.qptr - 4 = q := by omega
    have hlen : c.qsize = rd32 m q := by
      rw [hsz, hq, hquick m1 hm1 q hlo (by omega)]
      exact (rd32_eq_rd8_of_lt m q (hsmall _ (List.mem_cons_self _ _))).symm
    have hnext : c.qptr + c.qsize = q + 4 + rd32 m q := by omega
    rw [hnext] at h2
    have hrec := ih (q + 4 + rd32 m q) h2
      (fun x hx => hrd x (List.mem_cons_of_mem _ hx)) (by omega)
      (fun n hn => hsmall n (List.mem_cons_of_mem _ hn)) (by omega)
    have hc : consumed (c :: cs) = 4 + c.qsize + consumed cs := by
      simp [consumed]
    rw [hc, hrec, hlen]

/-- The run on a container whose structure stays as it is: it ends in the final
test, after calls on the code items of the reference traversal. -/
theorem unquicken_static (L : Layout) (D : Dex) (m : Mem) (cursor : Nat)
    (I : Mem → Prop)
    (hq : vdex_GetQuickeningInfoSize L m cursor ≠ 0)
    (hok : ∀ m1 c p n b, (D.dex_DexcompileDriver m1 c p n b).1 = true)
    (hinit : I m)
    (hstep : ∀ m1 c p n b, I m1 → c ∈ refTraversal L D m cursor →
      I (D.dex_DexcompileDriver m1 c p n b).2)
    (hframe : ∀ m1, I m1 → readContainer L D m1 cursor = readContainer L D m cursor) :
    ∃ s1 new, vdex_Unquicken L D m cursor =
        finalCheck (vdex_GetQuickeningInfo L m cursor + vdex_GetQuickeningInfoSize L m cursor) s1 ∧
      Walk I (initSt L m cursor) s1 new ∧ new.map Call.code = refTraversal L D m cursor := by
  unfold vdex_Unquicken
  rw [if_neg hq]
  obtain ⟨s1, new, h1, _, h3, h4⟩ := dexFileLoop_static L D I (refTraversal L D m cursor)
    hok hstep cursor
    (vdex_GetQuickeningInfo L m cursor + vdex_GetQuickeningInfoSize L m cursor)
    (rd32 m (cursor + L.off_number_of_dex_files_)) U32 0 0 (initSt L m cursor)
    (readContainer L D m cursor) hinit
    (by
      intro m1 hm
      have hlen := congrArg List.length (hframe m1 hm)
      simp only [readContainer, readSlots_length] at hlen
      refine ⟨hlen, ?_⟩
      rw [← hlen]
      exact hframe m1 hm)
    (by omega)
    (fun c hc => hc)
  exact ⟨s1, new, h1, h3, h4⟩

theorem getNext_none_of_oversize (L : Layout) (m : Mem) (cursor offset : Nat)
    (h0 : offset ≠ 0)
    (hbig : vdex_DexEnd L m cursor < cursor + offset + rd32 m (cursor + offset + L.off_fileSize)) :
    vdex_GetNextDexFileData L m cursor offset = (none, offset) := by
  unfold vdex_GetNextDexFileData
  rw [if_neg h0]
  simp only
  rw [if_neg (by omega), if_neg (by omega)]

theorem methodLoop_small (D : Dex) (dexFileBuf : Nat) (n cur : Nat) (s : St)
    (hs : ∀ c ∈ s.calls, c.qsize < 256) :
    ∀ c ∈ (methodLoop D dexFileBuf n cur s).st.calls, c.qsize < 256 := by
  induction n generalizing cur s with
  | zero => exact hs
  | succ n ih =>
    have hnew : ∀ (ok : Bool) (c : Call),
        c ∈ s.calls ++ [⟨dexFileBuf + (D.dex_readClassDataMethod s.mem cur).2.codeOff % U32,
          s.qptr + 4, rd8 s.mem s.qptr, ok⟩] → c.qsize < 256 := by
      intro ok c hc
      rcases List.mem_append.1 hc with h | h
      · exact hs c h
      · rw [List.mem_singleton.1 h]
        exact rd8_lt _ _
    unfold methodLoop
    simp only
    split
    · exact ih _ _ hs
    · split
      · exact hnew false
      · exact ih _ _ (hnew true)

theorem classBody_small (L : Layout) (D : Dex) (dexFileBuf dexClassDefs i : Nat) (s : St)
    (hs : ∀ c ∈ s.calls, c.qsize < 256) :
    ∀ c ∈ (classBody L D dexFileBuf dexClassDefs i s).st.calls, c.qsize < 256 := by
  unfold classBody
  simp only
  split
  · exact hs
  · have h1 := methodLoop_small D dexFileBuf
      ((D.dex_readClassDataHeader s.mem (dexFileBuf + rd32 s.mem
        (dexClassDefs + i * L.sizeof_dexClassDef + L.off_classDataOff))).2.directMethodsSize % U32)
      (fieldLoop D s.mem ((D.dex_readClassDataHeader s.mem (dexFileBuf + rd32 s.mem
        (dexClassDefs + i * L.sizeof_dexClassDef + L.off_classDataOff))).2.instanceFieldsSize % U32)
        (fieldLoop D s.mem ((D.dex_readClassDataHeader s.mem (dexFileBuf + rd32 s.mem
        (dexClassDefs + i * L.sizeof_dexClassDef + L.off_classDataOff))).2.staticFieldsSize % U32)
        (D.dex_readClassDataHeader s.mem (dexFileBuf + rd32 s.mem
        (dexClassDefs + i * L.sizeof_dexClassDef + L.off_classDataOff))).1)) s hs
    split
    · rename_i s1 heq
      rw [heq] at h1; exact h1
    · rename_i c3 s1 heq
      rw [heq] at h1
      have h2 := methodLoop_small D dexFileBuf
        ((D.dex_readClassDataHeader s.mem (dexFileBuf + rd32 s.mem
          (dexClassDefs + i * L.sizeof_dexClassDef + L.off_classDataOff))).2.virtualMethodsSize % U32)
        c3 s1 h1
      split
      · rename_i s2 heq2
        rw [heq2] at h2; exact h2
      · rename_i x s2 heq2
        rw [heq2] at h2; exact h2

theorem classLoop_small (L : Layout) (D : Dex) (dexFileBuf dexClassDefs : Nat)
    (fuel i : Nat) (s : St) (hs : ∀ c ∈ s.calls, c.qsize < 256) :
    ∀ c ∈ (classLoop L D dexFileBuf dexClassDefs fuel i s).st.calls, c.qsize < 256 := by
  induction fuel generalizing i s with
  | zero => exact hs
  | succ fuel ih =>
    unfold classLoop
    split
    · have h1 := classBody_small L D dexFileBuf dexClassDefs i s hs
      split
      · rename_i s1 heq
        rw [heq] at h1; exact h1
      · rename_i x s1 heq
        rw [heq] at h1
        exact ih _ _ h1
    · exact hs

theorem dexFileLoop_small (L : Layout) (D : Dex) (cursor e : Nat)
    (fuel idx offset : Nat) (s : St) (hs : ∀ c ∈ s.calls, c.qsize < 256) :
    ∀ c ∈ (dexFileLoop L D cursor e fuel idx offset s).calls, c.qsize < 256 := by
  induction fuel generalizing idx offset s with
  | zero =>
    unfold dexFileLoop
    rw [finalCheck_toSt]; exact hs
  | succ fuel ih =>
    unfold dexFileLoop
    split
    · simp only
      split
      · exact ih _ _ _ hs
      · rename_i dexFileBuf heq
        split
        · exact ih _ _ _ hs
        · have h := classLoop_small L D dexFileBuf
            (dexFileBuf + rd32 s.mem (dexFileBuf + L.off_classDefsOff)) U32 0
            { s with iters := s.iters ++
                [⟨offset, (vdex_GetNextDexFileData L s.mem cursor offset).1,
                  (vdex_GetNextDexFileData L s.mem cursor offset).2⟩] } hs
          split
          · rename_i s2 hcl
            rw [hcl] at h; exact h
          · rename_i x s2 hcl
            rw [hcl] at h
            exact ih _ _ _ h
    · rw [finalCheck_toSt]; exact hs

theorem marked_none : threeMethods = marked false false false := by
  funext a
  simp [marked]

theorem threeMethods_codes :
    refTraversal stdLayout (lebDex trMark) threeMethods 0 = [284, 292, 300] := by
  decide

theorem trMark_marked (b1 b2 b3 : Bool) (c : Nat) (hc : c ∈ [284, 292, 300]) :
    ∃ d1 d2 d3, ((lebDex trMark).dex_DexcompileDriver (marked b1 b2 b3) c 0 0 true).2 =
      marked d1 d2 d3 := by
  simp only [List.mem_cons, List.mem_singleton, List.not_mem_nil, or_false] at hc
  rcases hc with rfl | rfl | rfl
  · refine ⟨true, b2, b3, ?_⟩
    funext a
    show (if a = 284 then 255 else marked b1 b2 b3 a) = marked true b2 b3 a
    unfold marked
    by_cases h : a = 284
    · simp only [h, if_true]
    · simp only [h, if_false]
  · refine ⟨b1, true, b3, ?_⟩
    funext a
    show (if a = 292 then 255 else marked b1 b2 b3 a) = marked b1 true b3 a
    unfold marked
    by_cases h : a = 292
    · subst h; simp only [if_true]; rfl
    · simp only [h, if_false]
  · refine ⟨b1, b2, true, ?_⟩
    funext a
    show (if a = 300 then 255 else marked b1 b2 b3 a) = marked b1 b2 true a
    unfold marked
    by_cases h : a = 300
    · subst h; simp only [if_true]; rfl
    · simp only [h, if_false]

theorem threeMethods_reads :
    readContainer stdLayout (lebDex trMark) threeMethods 0 = threeTree := by
  rfl

theorem marked_reads (b1 b2 b3 : Bool) :
    readContainer stdLayout (lebDex trMark) (marked b1 b2 b3) 0 = threeTree := by
  cases b1 <;> cases b2 <;> cases b3 <;> rfl

/-- The comparison made by `memcmp` against a constant succeeds exactly when
every byte of the field is the byte of the constant at the same index. -/
theorem bytesAt_beq_iff (m : Mem) (a : Nat) (l : List Nat) :
    (bytesAt m a l.length == l.map (fun b => b % 256)) = true ↔
      ∀ i, i < l.length → rd8 m (a + i) = l.getD i 0 % 256 := by
  rw [beq_iff_eq]
  unfold bytesAt
  constructor
  · intro h i hi
    have h1 := congrArg (fun x => x.getD i 0) h
    simp only [List.getD_eq_getElem?_getD, List.getElem?_map] at h1
    simp [List.getElem?_range hi, List.getElem?_eq_getElem hi] at h1
    simp [List.getD_eq_getElem?_getD, List.getElem?_eq_getElem hi, h1]
  · intro h
    apply List.ext_getElem
    · simp
    · intro i h1 h2
      simp only [List.length_map, List.length_range] at h1
      simp only [List.getElem_map, List.getElem_range]
      rw [h i h1]
      simp [List.getD_eq_getElem?_getD, List.getElem?_eq_getElem h1]

/-- A dex file returned by `vdex_GetNextDexFileData` is the one at
`vdex_DexBegin` when `*offset` was 0 and the one at `cursor + *offset`
otherwise; `*offset` is left at the container offset of the dex file plus its
`fileSize`, modulo `2^32`. -/
theorem getNext_some (L : Layout) (m : Mem) (cursor offset b off1 : Nat)
    (h : vdex_GetNextDexFileData L m cursor offset = (some b, off1)) :
    b = (if offset = 0 then vdex_DexBegin L m cursor else cursor + offset) ∧
    off1 = (b - cursor + rd32 m (b + L.off_fileSize)) % U32 := by
  unfold vdex_GetNextDexFileData at h
  by_cases h0 : offset = 0
  · rw [if_pos h0] at h
    rw [if_pos h0]
    split at h
    · simp only [Prod.mk.injEq, Option.some.injEq] at h
      obtain ⟨hb, ho⟩ := h
      refine ⟨hb.symm, ?_⟩
      rw [← ho, ← hb]
      unfold vdex_DexBegin
      rw [Nat.mod_add_mod]
      congr 2
      omega
    · simp at h
  · rw [if_neg h0] at h
    rw [if_neg h0]
    simp only at h
    split at h
    · simp only [Prod.mk.injEq, Option.some.injEq] at h
      obtain ⟨hb, ho⟩ := h
      refine ⟨hb.symm, ?_⟩
      rw [← ho, ← hb]
      congr 2
      omega
    · split at h
      · simp only [Prod.mk.injEq, Option.some.injEq] at h
        obtain ⟨hb, ho⟩ := h
        refine ⟨hb.symm, ?_⟩
        rw [← ho, ← hb]
        congr 2
        omega
      · simp at h

/-- The loop over the dex files, entered with a non-zero cursor at a dex file whose
declared end lies beyond `vdex_DexEnd`: each of the remaining iterations calls
the iterator with the same cursor and gets `NULL`, the transform is not called,
the quickening cursor and the memory stay as they are, and the result is `true`
exactly when the quickening cursor is already at the end of the quickening
info. -/
theorem dexFileLoop_stuck_after_oversize (L : Layout) (D : Dex) (cursor e : Nat)
    (fuel idx offset : Nat) (s : St)
    (h0 : offset ≠ 0)
    (hbig : vdex_DexEnd L s.mem cursor <
      cursor + offset + rd32 s.mem (cursor + offset + L.off_fileSize))
    (hfuel : U32 ≤ idx + fuel) :
    (dexFileLoop L D cursor e fuel idx offset s).calls = s.calls ∧
    (dexFileLoop L D cursor e fuel idx offset s).qptr = s.qptr ∧
    (dexFileLoop L D cursor e fuel idx offset s).mem = s.mem ∧
    (dexFileLoop L D cursor e fuel idx offset s).iters =
      s.iters ++ List.replicate (rd32 s.mem (cursor + L.off_number_of_dex_files_) - idx)
        ⟨offset, none, offset⟩ ∧
    ((dexFileLoop L D cursor e fuel idx offset s).ok = true ↔ s.qptr = e) := by
  have hfin : ∀ s1 : St, ((finalCheck e s1).ok = true ↔ s1.qptr = e) := by
    intro s1
    unfold finalCheck
    split
    · rename_i h; simp [h]
    · rename_i h; simp [not_not.1 h]
  induction fuel generalizing idx s with
  | zero =>
    have hlt := rd32_lt s.mem (cursor + L.off_number_of_dex_files_)
    have hz : rd32 s.mem (cursor + L.off_number_of_dex_files_) - idx = 0 := by omega
    rw [hz]
    simp only [dexFileLoop, finalCheck_toSt, List.replicate, List.append_nil, true_and]
    exact hfin s
  | succ fuel ih =>
    unfold dexFileLoop
    by_cases hi : idx < rd32 s.mem (cursor + L.off_number_of_dex_files_)
    · rw [if_pos hi]
      simp only
      rw [getNext_none_of_oversize L s.mem cursor offset h0 hbig]
      simp only
      obtain ⟨h1, h2, h3, h4, h5⟩ := ih (idx + 1)
        { s with iters := s.iters ++ [⟨offset, none, offset⟩] } hbig (by omega)
      refine ⟨h1, h2, h3, ?_, h5⟩
      rw [h4]
      have hk : rd32 s.mem (cursor + L.off_number_of_dex_files_) - idx =
          (rd32 s.mem (cursor + L.off_number_of_dex_files_) - (idx + 1)) + 1 := by omega
      rw [hk, List.replicate_succ]
      simp
    · rw [if_neg hi]
      have hz : rd32 s.mem (cursor + L.off_number_of_dex_files_) - idx = 0 := by omega
      rw [hz]
      simp only [finalCheck_toSt, List.replicate, List.append_nil, true_and]
      exact hfin s

/-- The loop at the second of three dex files, which declares a size beyond the end
of the section. -/
theorem secondTooLong_stuck_at_228 :
    (dexFileLoop stdLayout (lebDex trAccept) 0 650 U32 1 228
        ⟨secondTooLong, 645, [⟨196, 644, 1, true⟩], [⟨0, some 36, 228⟩]⟩).calls =
      [⟨196, 644, 1, true⟩] ∧
    (dexFileLoop stdLayout (lebDex trAccept) 0 650 U32 1 228
        ⟨secondTooLong, 645, [⟨196, 644, 1, true⟩], [⟨0, some 36, 228⟩]⟩).iters =
      [⟨0, some 36, 228⟩] ++ List.replicate
        (rd32 secondTooLong (0 + stdLayout.off_number_of_dex_files_) - 1) ⟨228, none, 228⟩ :=
  have h := dexFileLoop_stuck_after_oversize stdLayout (lebDex trAccept) 0 650 U32 1 228
    ⟨secondTooLong, 645, [⟨196, 644, 1, true⟩], [⟨0, some 36, 228⟩]⟩
    (by decide) (by decide) (by decide)
  ⟨h.1, h.2.2.2.1⟩

/-! The claims -/

/-- Claim C1 fails on two containers.  In the first the first dex file declares
the size `2^32 - 32`: the module cursor comes back to 0, the iterator returns
the same dex file a second time and its method is handed to the transform
twice, in a run that returns `true`.  In the second the code item of the first
method lies on the field `classDefsSize` of the header of the dex file and the
transform (which accepts every method) writes to the code item: the second
class of the reference traversal is never reached. -/
theorem reyielded_module_transformed_twice :
    ((vdex_Unquicken stdLayout (lebDex trAccept) firstReyielded 0).iters =
        [⟨0, some 32, 0⟩, ⟨0, some 32, 0⟩] ∧
      (vdex_Unquicken stdLayout (lebDex trAccept) firstReyielded 0).calls =
        [⟨192, 452, 1, true⟩, ⟨192, 457, 1, true⟩] ∧
      (vdex_Unquicken stdLayout (lebDex trAccept) firstReyielded 0).ok = true) ∧
    (refTraversal stdLayout (lebDex trZero) codeOnHeader 0 = [124, 228] ∧
      (vdex_Unquicken stdLayout (lebDex trZero) codeOnHeader 0).calls.map Call.code = [124]) := by
  decide

/-- Claim C1 as amended.  With a non-empty quickening info and a transform that
accepts every method and leaves the structure the walker reads as it is, the
code items handed to the transform, in the order of the calls, are exactly the
reference traversal: modules in iterator order (rejected ones and ones with a
wrong magic left out), classes in table order (ones without class data left
out), fields decoded and dropped, direct methods and then virtual methods in
declared order, one call for each method with a non-zero code offset of each
module the iterator returns, on the code item at module start + code offset,
and none for a method with code offset zero.  What is asked of the transform:
`I` is any set of memory images that holds the initial one, that the transform
does not leave when it is applied to a code item of the traversal, and in which
the container reads as it does initially. -/
theorem unquicken_calls_follow_reference (L : Layout) (D : Dex) (m : Mem) (cursor : Nat)
    (I : Mem → Prop)
    (hq : vdex_GetQuickeningInfoSize L m cursor ≠ 0)
    (hok : ∀ m1 c p n b, (D.dex_DexcompileDriver m1 c p n b).1 = true)
    (hinit : I m)
    (hstep : ∀ m1 c p n b, I m1 → c ∈ refTraversal L D m cursor →
      I (D.dex_DexcompileDriver m1 c p n b).2)
    (hframe : ∀ m1, I m1 → readContainer L D m1 cursor = readContainer L D m cursor) :
    (vdex_Unquicken L D m cursor).calls.map Call.code = refTraversal L D m cursor := by
  obtain ⟨s1, new, h1, h2, h3⟩ := unquicken_static L D m cursor I hq hok hinit hstep hframe
  rw [h1, finalCheck_toSt, h2.1, ← h3]
  simp [initSt]

/-- Witness of claim C1 as amended, on a container with three classes and three methods with
code, with a transform that overwrites the first byte of every code item it is
given. -/
theorem unquicken_calls_follow_reference_witness :
    vdex_GetQuickeningInfoSize stdLayout threeMethods 0 ≠ 0 ∧
    (vdex_Unquicken stdLayout (lebDex trMark) threeMethods 0).calls.map Call.code =
      refTraversal stdLayout (lebDex trMark) threeMethods 0 ∧
    refTraversal stdLayout (lebDex trMark) threeMethods 0 = [284, 292, 300] ∧
    threeMethods 292 = 0 ∧
    (vdex_Unquicken stdLayout (lebDex trMark) threeMethods 0).mem 292 = 255 :=
  ⟨by decide,
   unquicken_calls_follow_reference stdLayout (lebDex trMark) threeMethods 0
     (fun m1 => ∃ b1 b2 b3, m1 = marked b1 b2 b3) (by decide)
     (fun _ _ _ _ _ => rfl) ⟨false, false, false, marked_none⟩
     (fun m1 c _ _ _ h1 hc => by
       obtain ⟨b1, b2, b3, rfl⟩ := h1
       exact trMark_marked b1 b2 b3 c (by rw [threeMethods_codes] at hc; exact hc))
     (fun m1 h1 => by
       obtain ⟨b1, b2, b3, rfl⟩ := h1
       rw [marked_reads b1 b2 b3, threeMethods_reads]),
   by decide, by decide, by decide⟩

/-- Claim C2 fails on three containers in which the records of the methods with
code fill the quickening info exactly.  In the first the only record has the
length 0x00000100 and 256 payload bytes, the transform accepts, and the result
is `false` with the cursor 4 bytes after the start.  In the second (the
container with one record of 6 bytes) the transform rejects the method and the
result is `false`.  In the third the transform accepts every method and writes
to a code item that lies on the header of the dex file; the result is
`false`. -/
theorem exact_fill_rejected :
    (recordTotal stdLayout (lebDex trAccept) (oneMethod 260 [0, 1, 0, 0]) 0 = 260 ∧
      vdex_GetQuickeningInfoSize stdLayout (oneMethod 260 [0, 1, 0, 0]) 0 = 260 ∧
      (vdex_Unquicken stdLayout (lebDex trAccept) (oneMethod 260 [0, 1, 0, 0]) 0).ok = false ∧
      (vdex_Unquicken stdLayout (lebDex trAccept) (oneMethod 260 [0, 1, 0, 0]) 0).qptr =
        vdex_GetQuickeningInfo stdLayout (oneMethod 260 [0, 1, 0, 0]) 0 + 4) ∧
    (recordTotal stdLayout (lebDex (trRejectAt 188)) (oneMethod 6 [2, 0, 0, 0, 170, 187]) 0 = 6 ∧
      vdex_GetQuickeningInfoSize stdLayout (oneMethod 6 [2, 0, 0, 0, 170, 187]) 0 = 6 ∧
      (vdex_Unquicken stdLayout (lebDex (trRejectAt 188))
        (oneMethod 6 [2, 0, 0, 0, 170, 187]) 0).ok = false) ∧
    (recordTotal stdLayout (lebDex trZero) codeOnHeader 0 = 8 ∧
      vdex_GetQuickeningInfoSize stdLayout codeOnHeader 0 = 8 ∧
      (vdex_Unquicken stdLayout (lebDex trZero) codeOnHeader 0).ok = false) := by
  decide

/-- Claim C2 as amended.  With a transform that accepts every method and leaves
the structure the walker reads and the bytes of the quickening info as they
are (`I` as for claim C1), when every record has a payload length below 256 and
the sum, over the methods with code in traversal order, of 4 + the payload
length is `quickening_info_size_`, the result is `true` and the quickening
cursor ends at the start of the quickening info + `quickening_info_size_`. -/
theorem unquicken_true_on_exact_fill (L : Layout) (D : Dex) (m : Mem) (cursor : Nat)
    (I : Mem → Prop)
    (hok : ∀ m1 c p n b, (D.dex_DexcompileDriver m1 c p n b).1 = true)
    (hinit : I m)
    (hstep : ∀ m1 c p n b, I m1 → c ∈ refTraversal L D m cursor →
      I (D.dex_DexcompileDriver m1 c p n b).2)
    (hframe : ∀ m1, I m1 → readContainer L D m1 cursor = readContainer L D m cursor)
    (hquick : ∀ m1, I m1 → ∀ a, vdex_GetQuickeningInfo L m cursor ≤ a →
      a < vdex_GetQuickeningInfo L m cursor + vdex_GetQuickeningInfoSize L m cursor →
      rd8 m1 a = rd8 m a)
    (hsmall : ∀ n ∈ recordLengths m (refTraversal L D m cursor).length
      (vdex_GetQuickeningInfo L m cursor), n < 256)
    (hsum : recordTotal L D m cursor = vdex_GetQuickeningInfoSize L m cursor) :
    (vdex_Unquicken L D m cursor).ok = true ∧
    (vdex_Unquicken L D m cursor).qptr =
      vdex_GetQuickeningInfo L m cursor + vdex_GetQuickeningInfoSize L m cursor := by
  by_cases hq : vdex_GetQuickeningInfoSize L m cursor = 0
  · unfold vdex_Unquicken
    rw [if_pos hq]
    exact ⟨rfl, by simp [initSt, hq]⟩
  · obtain ⟨s1, new, h1, h2, h3⟩ := unquicken_static L D m cursor I hq hok hinit hstep hframe
    obtain ⟨_, _, w3, w4, w5⟩ := h2
    have hlen : new.length = (refTraversal L D m cursor).length := by
      rw [← h3, List.length_map]
    simp only [initSt] at w3 w4
    unfold recordTotal at hsum
    rw [← hlen] at hsmall hsum
    have hcons := consumed_eq_records I m (vdex_GetQuickeningInfo L m cursor)
      (vdex_GetQuickeningInfo L m cursor + vdex_GetQuickeningInfoSize L m cursor)
      hquick new (vdex_GetQuickeningInfo L m cursor) w3 w5 (Nat.le_refl _) hsmall (by omega)
    have hend : s1.qptr =
        vdex_GetQuickeningInfo L m cursor + vdex_GetQuickeningInfoSize L m cursor := by
      rw [w4, hcons, hsum]
    rw [h1]
    unfold finalCheck
    rw [if_neg (by simp [hend])]
    exact ⟨rfl, hend⟩

/-- Witness of claim C2 as amended: one dex file, one class, one direct method
with code, a quickening info of 6 bytes (the length 0x00000002 and 2 payload
bytes): success, one call with the length 2, the cursor 6 bytes after the
start. -/
theorem unquicken_true_on_exact_fill_witness :
    recordTotal stdLayout (lebDex trAccept) (oneMethod 6 [2, 0, 0, 0, 170, 187]) 0 =
      vdex_GetQuickeningInfoSize stdLayout (oneMethod 6 [2, 0, 0, 0, 170, 187]) 0 ∧
    (vdex_Unquicken stdLayout (lebDex trAccept) (oneMethod 6 [2, 0, 0, 0, 170, 187]) 0).calls =
      [⟨188, 260, 2, true⟩] ∧
    (vdex_Unquicken stdLayout (lebDex trAccept) (oneMethod 6 [2, 0, 0, 0, 170, 187]) 0).ok = true ∧
    (vdex_Unquicken stdLayout (lebDex trAccept) (oneMethod 6 [2, 0, 0, 0, 170, 187]) 0).qptr =
      vdex_GetQuickeningInfo stdLayout (oneMethod 6 [2, 0, 0, 0, 170, 187]) 0 + 6 :=
  ⟨by decide, by decide,
   unquicken_true_on_exact_fill stdLayout (lebDex trAccept) (oneMethod 6 [2, 0, 0, 0, 170, 187]) 0
     (fun m1 => m1 = oneMethod 6 [2, 0, 0, 0, 170, 187])
     (fun _ _ _ _ _ => rfl) rfl (fun _ _ _ _ _ h _ => h) (fun _ h => by rw [h])
     (fun _ h _ _ _ => by rw [h]) (by decide) (by decide)⟩

/-- Claim C3, evaluated on a container whose only record has the length bytes
`02 01 00 00` in a quickening info of 6 bytes: by its 4-byte length the record
takes 4 + 258 = 262 bytes, more than the section holds; the transform is handed
the length 2, the quickening cursor ends 6 bytes after the start and the result
is `true`.  On every container with a non-empty quickening info a result `true`
has the cursor at the end of the quickening info, and the records add up to
`quickening_info_size_` when each is counted with the length that was handed
to the transform. -/
theorem overlong_stream_accepted :
    (vdex_GetQuickeningInfoSize stdLayout (oneMethod 6 [2, 1, 0, 0, 170, 187]) 0 = 6 ∧
     recordLengths (oneMethod 6 [2, 1, 0, 0, 170, 187])
       (refTraversal stdLayout (lebDex trAccept) (oneMethod 6 [2, 1, 0, 0, 170, 187]) 0).length
       (vdex_GetQuickeningInfo stdLayout (oneMethod 6 [2, 1, 0, 0, 170, 187]) 0) = [258] ∧
     recordTotal stdLayout (lebDex trAccept) (oneMethod 6 [2, 1, 0, 0, 170, 187]) 0 = 262 ∧
     (vdex_Unquicken stdLayout (lebDex trAccept) (oneMethod 6 [2, 1, 0, 0, 170, 187]) 0).calls =
       [⟨188, 260, 2, true⟩] ∧
     (vdex_Unquicken stdLayout (lebDex trAccept) (oneMethod 6 [2, 1, 0, 0, 170, 187]) 0).qptr =
       vdex_GetQuickeningInfo stdLayout (oneMethod 6 [2, 1, 0, 0, 170, 187]) 0 + 6 ∧
     (vdex_Unquicken stdLayout (lebDex trAccept) (oneMethod 6 [2, 1, 0, 0, 170, 187]) 0).ok =
       true) ∧
    (∀ (L : Layout) (D : Dex) (m : Mem) (cursor : Nat),
      vdex_GetQuickeningInfoSize L m cursor ≠ 0 →
      (vdex_Unquicken L D m cursor).ok = true →
      (vdex_Unquicken L D m cursor).qptr =
        vdex_GetQuickeningInfo L m cursor + vdex_GetQuickeningInfoSize L m cursor ∧
      consumed (vdex_Unquicken L D m cursor).calls = vdex_GetQuickeningInfoSize L m cursor) := by
  refine ⟨by decide, ?_⟩
  intro L D m cursor hq hok
  obtain ⟨⟨new, h1, _, _, h4⟩, h5⟩ := (unquicken_resultOk L D m cursor hq).1 hok
  simp only [initSt, List.nil_append] at h1 h4
  refine ⟨h5, ?_⟩
  rw [h1]
  omega

/-- Claim C4. When `quickening_info_size_` is zero, whatever else the container
holds, the result is `true`, the transform is not called, the module iterator
is not called and the memory is left as it was. -/
theorem unquicken_without_info_is_noop (L : Layout) (D : Dex) (m : Mem) (cursor : Nat)
    (hq : vdex_GetQuickeningInfoSize L m cursor = 0) :
    (vdex_Unquicken L D m cursor).ok = true ∧
    (vdex_Unquicken L D m cursor).calls = [] ∧
    (vdex_Unquicken L D m cursor).iters = [] ∧
    (vdex_Unquicken L D m cursor).mem = m := by
  unfold vdex_Unquicken
  rw [if_pos hq]
  exact ⟨rfl, rfl, rfl, rfl⟩

/-- Witness of claim C4: a container with a method with code, and a transform that
would reject it and write to it. -/
theorem unquicken_without_info_is_noop_witness :
    vdex_GetQuickeningInfoSize stdLayout (oneMethod 0 []) 0 = 0 ∧
    (vdex_Unquicken stdLayout (lebDex trSpoil) (oneMethod 0 []) 0).ok = true ∧
    (vdex_Unquicken stdLayout (lebDex trSpoil) (oneMethod 0 []) 0).calls = [] ∧
    (vdex_Unquicken stdLayout (lebDex trSpoil) (oneMethod 0 []) 0).iters = [] ∧
    (vdex_Unquicken stdLayout (lebDex trSpoil) (oneMethod 0 []) 0).mem = oneMethod 0 [] :=
  ⟨by decide,
   unquicken_without_info_is_noop stdLayout (lebDex trSpoil) (oneMethod 0 []) 0 (by decide)⟩

/-- Claim C5. When the transform reports a failure on its call number `k + 1`, the
result is `false` and that call is the last one: the transform was called
`k + 1` times in all, whatever follows in the class, the module, the container
and the quickening info. -/
theorem unquicken_stops_at_first_failure (L : Layout) (D : Dex) (m : Mem) (cursor : Nat)
    (k : Nat) (c : Call)
    (hk : (vdex_Unquicken L D m cursor).calls[k]? = some c) (hc : c.ok = false) :
    (vdex_Unquicken L D m cursor).ok = false ∧
    (vdex_Unquicken L D m cursor).calls.length = k + 1 := by
  by_cases hq : vdex_GetQuickeningInfoSize L m cursor = 0
  · have h : (vdex_Unquicken L D m cursor).calls = [] := by
      unfold vdex_Unquicken
      rw [if_pos hq]
      rfl
    rw [h] at hk
    simp at hk
  · have h := unquicken_resultOk L D m cursor hq
    have hmem : c ∈ (vdex_Unquicken L D m cursor).calls := List.getElem?_mem hk
    have hgood : ¬ Good (initSt L m cursor) (vdex_Unquicken L D m cursor).toSt := by
      rintro ⟨new, h1, h2, _, _⟩
      simp only [initSt, List.nil_append] at h1
      rw [h1] at hmem
      have := h2 c hmem
      rw [hc] at this
      exact absurd this (by simp)
    cases hok : (vdex_Unquicken L D m cursor).ok with
    | true => exact absurd (h.1 hok).1 hgood
    | false =>
      refine ⟨rfl, ?_⟩
      rcases h.2 hok with hb | ⟨hg, _⟩
      · obtain ⟨new, d, h1, h2, _, _, _⟩ := hb
        simp only [initSt, List.nil_append] at h1
        rw [h1] at hk ⊢
        have hlt : ¬ k < new.length := by
          intro hlt
          rw [List.getElem?_append_left hlt] at hk
          have := h2 c (List.getElem?_mem hk)
          rw [hc] at this
          exact absurd this (by simp)
        have hle : k < (new ++ [d]).length := by
          by_contra hge
          rw [List.getElem?_eq_none (by omega)] at hk
          exact absurd hk (by simp)
        simp only [List.length_append, List.length_singleton] at hle ⊢
        omega
      · exact absurd hg hgood

/-- Witness of claim C5: the transform rejects the second of three methods with
code. -/
theorem unquicken_stops_at_first_failure_witness :
    (vdex_Unquicken stdLayout (lebDex (trRejectAt 292)) threeMethods 0).calls[1]? =
      some ⟨292, 338, 0, false⟩ ∧
    (vdex_Unquicken stdLayout (lebDex (trRejectAt 292)) threeMethods 0).ok = false ∧
    (vdex_Unquicken stdLayout (lebDex (trRejectAt 292)) threeMethods 0).calls.length = 2 :=
  ⟨by decide,
   unquicken_stops_at_first_failure stdLayout (lebDex (trRejectAt 292)) threeMethods 0 1
     ⟨292, 338, 0, false⟩ (by decide) rfl⟩

/-- Claim C6, evaluated on a container with three dex files of which the second
declares a size that ends beyond the modules section: the third one, at 420, has
a valid magic and ends exactly at the end of the section, and the records of the
first and the third fill the quickening info; the iterator is called with the
cursor 228 twice and never returns 420, the transform is called for the first
dex file only and the result is `false`. -/
theorem oversize_module_hides_later_modules :
    vdex_DexEnd stdLayout secondTooLong 0 < 228 + rd32 secondTooLong (228 + 32) ∧
    (lebDex trAccept).dex_isValidDexMagic secondTooLong 420 = true ∧
    420 + rd32 secondTooLong (420 + 32) = vdex_DexEnd stdLayout secondTooLong 0 ∧
    ((recordLengths secondTooLong 2 (vdex_GetQuickeningInfo stdLayout secondTooLong 0)).map
      (fun n => 4 + n)).sum = vdex_GetQuickeningInfoSize stdLayout secondTooLong 0 ∧
    (vdex_Unquicken stdLayout (lebDex trAccept) secondTooLong 0).iters =
      [⟨0, some 36, 228⟩, ⟨228, none, 228⟩, ⟨228, none, 228⟩] ∧
    (vdex_Unquicken stdLayout (lebDex trAccept) secondTooLong 0).calls =
      [⟨196, 644, 1, true⟩] ∧
    (vdex_Unquicken stdLayout (lebDex trAccept) secondTooLong 0).ok = false := by
  decide

/-- Claim C7 fails on a container whose first dex file, at 32, has a wrong magic and
declares the size `0xFFFFFFFF`: its declared size ends at offset 4294967327, but
the next call of the iterator is made with the cursor 31. -/
theorem bad_magic_cursor_wraps :
    (lebDex trAccept).dex_isValidDexMagic firstWraps 32 = false ∧
    32 + rd32 firstWraps (32 + stdLayout.off_fileSize) = 4294967327 ∧
    (vdex_Unquicken stdLayout (lebDex trAccept) firstWraps 0).iters =
      [⟨0, some 32, 31⟩, ⟨31, none, 31⟩] := by
  decide

/-- Claim C7 as amended.  When the iterator returns a module that fails the magic
check, the iteration calls no transform and reads no quickening record and does
not return: the rest of the run is the loop over the remaining dex files, from
the same memory, the same quickening cursor and the same list of calls, its
module cursor being the one the iterator left, that is the module offset plus
the declared size modulo `2^32` (the offset where the declared size ends
whenever that is below `2^32`). -/
theorem dexFileLoop_skips_bad_magic (L : Layout) (D : Dex) (cursor e : Nat)
    (fuel idx offset : Nat) (s : St) (b off1 : Nat)
    (hidx : idx < rd32 s.mem (cursor + L.off_number_of_dex_files_))
    (hit : vdex_GetNextDexFileData L s.mem cursor offset = (some b, off1))
    (hmag : D.dex_isValidDexMagic s.mem b = false) :
    dexFileLoop L D cursor e (fuel + 1) idx offset s =
      dexFileLoop L D cursor e fuel (idx + 1) off1
        { s with iters := s.iters ++ [⟨offset, some b, off1⟩] } ∧
    off1 = (b - cursor + rd32 s.mem (b + L.off_fileSize)) % U32 ∧
    (b - cursor + rd32 s.mem (b + L.off_fileSize) < U32 →
      off1 = b - cursor + rd32 s.mem (b + L.off_fileSize)) := by
  have hoff : off1 = (b - cursor + rd32 s.mem (b + L.off_fileSize)) % U32 := by
    unfold vdex_GetNextDexFileData at hit
    split at hit
    · split at hit
      · simp only [Prod.mk.injEq, Option.some.injEq] at hit
        obtain ⟨hb, ho⟩ := hit
        rw [← ho, ← hb]
        have hsub : vdex_DexBegin L s.mem cursor - cursor =
            L.sizeof_vdexHeader + vdex_GetSizeOfChecksumsSection L s.mem cursor := by
          unfold vdex_DexBegin; omega
        rw [hsub, Nat.mod_add_mod]
      · simp at hit
    · simp only at hit
      split at hit
      · simp only [Prod.mk.injEq, Option.some.injEq] at hit
        obtain ⟨hb, ho⟩ := hit
        rw [← ho, ← hb, Nat.add_sub_cancel_left]
      · split at hit
        · simp only [Prod.mk.injEq, Option.some.injEq] at hit
          obtain ⟨hb, ho⟩ := hit
          rw [← ho, ← hb, Nat.add_sub_cancel_left]
        · simp at hit
  refine ⟨?_, hoff, ?_⟩
  · rw [dexFileLoop]
    rw [if_pos hidx]
    simp only [hit]
    rw [if_pos hmag]
  · intro hlt
    rw [hoff, Nat.mod_eq_of_lt hlt]

/-- Witness of claim C7 as amended: the first of two dex files has a wrong magic. -/
theorem dexFileLoop_skips_bad_magic_witness :
    dexFileLoop stdLayout (lebDex trAccept) 0 453 (4294967295 + 1) 0 0
        (initSt stdLayout firstBadMagic 0) =
      dexFileLoop stdLayout (lebDex trAccept) 0 453 4294967295 (0 + 1) 224
        { initSt stdLayout firstBadMagic 0 with
          iters := (initSt stdLayout firstBadMagic 0).iters ++ [⟨0, some 32, 224⟩] } ∧
    (vdex_Unquicken stdLayout (lebDex trAccept) firstBadMagic 0).calls =
      [⟨384, 452, 1, true⟩] :=
  ⟨(dexFileLoop_skips_bad_magic stdLayout (lebDex trAccept) 0 453 4294967295 0 0
      (initSt stdLayout firstBadMagic 0) 32 224 (by decide) (by decide) (by decide)).1,
   by decide⟩

/-- Claim C8, evaluated on a container whose only method with code has a record with
the length bytes `02 01 00 00`: the 32-bit value at the cursor is 258, the
transform is handed the length 2 and the cursor moves on by 4 + 2.  And on every
container the length handed to the transform is below 256. -/
theorem length_read_is_one_byte :
    (rd32 (oneMethod 262 [2, 1, 0, 0])
      (vdex_GetQuickeningInfo stdLayout (oneMethod 262 [2, 1, 0, 0]) 0) = 258 ∧
    (vdex_Unquicken stdLayout (lebDex trAccept) (oneMethod 262 [2, 1, 0, 0]) 0).calls =
      [⟨188, 260, 2, true⟩] ∧
    (vdex_Unquicken stdLayout (lebDex trAccept) (oneMethod 262 [2, 1, 0, 0]) 0).qptr =
      vdex_GetQuickeningInfo stdLayout (oneMethod 262 [2, 1, 0, 0]) 0 + 4 + 2) ∧
    (∀ (L : Layout) (D : Dex) (m : Mem) (cursor : Nat) (c : Call),
      c ∈ (vdex_Unquicken L D m cursor).calls → c.qsize < 256) := by
  refine ⟨by decide, ?_⟩
  intro L D m cursor c hc
  unfold vdex_Unquicken at hc
  split at hc
  · simp [initSt] at hc
  · exact dexFileLoop_small L D cursor _ U32 0 0 (initSt L m cursor)
      (by intro x hx; simp [initSt] at hx) c hc

/-- Claim C9 fails on a container whose only record has the length 5 while 2 bytes
are left in the quickening info (which ends at 262): the transform is handed
the range from 260 to 265, the cursor ends at 265, the result is `false`. -/
theorem overlong_record_reaches_transform :
    vdex_GetQuickeningInfo stdLayout (oneMethod 6 [5, 0, 0, 0, 1, 2]) 0 +
      vdex_GetQuickeningInfoSize stdLayout (oneMethod 6 [5, 0, 0, 0, 1, 2]) 0 = 262 ∧
    (vdex_Unquicken stdLayout (lebDex trAccept) (oneMethod 6 [5, 0, 0, 0, 1, 2]) 0).calls =
      [⟨188, 260, 5, true⟩] ∧
    (vdex_Unquicken stdLayout (lebDex trAccept) (oneMethod 6 [5, 0, 0, 0, 1, 2]) 0).qptr = 265 ∧
    (vdex_Unquicken stdLayout (lebDex trAccept) (oneMethod 6 [5, 0, 0, 0, 1, 2]) 0).ok = false := by
  decide

/-- Claim C9 as amended.  In a run that returns `true` the quickening cursor never
went beyond the end of the quickening info: the payload range of every call of
the transform starts at least 4 bytes after the start of the quickening info
and ends at or before its end.  (A run in which a range goes beyond the end
therefore returns `false`, after the transform has been handed that range.) -/
theorem unquicken_true_keeps_ranges_inside (L : Layout) (D : Dex) (m : Mem) (cursor : Nat)
    (hok : (vdex_Unquicken L D m cursor).ok = true)
    (c : Call) (hc : c ∈ (vdex_Unquicken L D m cursor).calls) :
    vdex_GetQuickeningInfo L m cursor + 4 ≤ c.qptr ∧
    c.qptr + c.qsize ≤
      vdex_GetQuickeningInfo L m cursor + vdex_GetQuickeningInfoSize L m cursor := by
  by_cases hq : vdex_GetQuickeningInfoSize L m cursor = 0
  · have h : (vdex_Unquicken L D m cursor).calls = [] := by
      unfold vdex_Unquicken
      rw [if_pos hq]
      rfl
    rw [h] at hc
    simp at hc
  · obtain ⟨⟨new, h1, _, h3, h4⟩, h5⟩ := (unquicken_resultOk L D m cursor hq).1 hok
    simp only [initSt, List.nil_append] at h1 h3 h4
    rw [h1] at hc
    have hb := chained_bounds new _ h3 c hc
    rw [h4] at h5
    omega

/-- Witness of claim C9 as amended: a run over three records that returns `true`. -/
theorem unquicken_true_keeps_ranges_inside_witness :
    (vdex_Unquicken stdLayout (lebDex trAccept) threeMethods 0).ok = true ∧
    (⟨300, 342, 3, true⟩ : Call) ∈
      (vdex_Unquicken stdLayout (lebDex trAccept) threeMethods 0).calls ∧
    vdex_GetQuickeningInfo stdLayout threeMethods 0 + 4 ≤ 342 ∧
    342 + 3 ≤ vdex_GetQuickeningInfo stdLayout threeMethods 0 +
      vdex_GetQuickeningInfoSize stdLayout threeMethods 0 :=
  ⟨by decide, by decide,
   unquicken_true_keeps_ranges_inside stdLayout (lebDex trAccept) threeMethods 0 (by decide)
     ⟨300, 342, 3, true⟩ (by decide)⟩

/-- Claim C10 fails on a container whose header declares a modules section of
`0xFFFFFFFF` bytes: at the cursor 28 the module declares the size `0xFFFFFFF0`,
its end 4294967308 is not beyond the end of the section, the module is returned
and the cursor is set to 12. -/
theorem cursor_update_wraps :
    28 + rd32 hugeSection (0 + 28 + stdLayout.off_fileSize) = 4294967308 ∧
    28 + rd32 hugeSection (0 + 28 + stdLayout.off_fileSize) ≤
      stdLayout.sizeof_vdexHeader + vdex_GetSizeOfChecksumsSection stdLayout hugeSection 0 +
        rd32 hugeSection (0 + stdLayout.off_dex_size_) ∧
    vdex_GetNextDexFileData stdLayout hugeSection 0 28 = (some 28, 12) := by
  decide

/-- Claim C10 as amended.  For a non-zero cursor value `offset` the iterator returns
`NULL` exactly when `offset + fileSize` (the size read from the module header at
`offset`) is beyond the end of the modules section (header size + length of the
checksum table + `dex_size_`); otherwise it returns the module at container
offset `offset` and sets the cursor to `offset + fileSize` modulo `2^32`. -/
theorem getNext_at_nonzero_cursor (L : Layout) (m : Mem) (cursor offset : Nat)
    (h0 : offset ≠ 0) :
    ((vdex_GetNextDexFileData L m cursor offset).1 = none ↔
      L.sizeof_vdexHeader + vdex_GetSizeOfChecksumsSection L m cursor +
          rd32 m (cursor + L.off_dex_size_) <
        offset + rd32 m (cursor + offset + L.off_fileSize)) ∧
    (offset + rd32 m (cursor + offset + L.off_fileSize) ≤
        L.sizeof_vdexHeader + vdex_GetSizeOfChecksumsSection L m cursor +
          rd32 m (cursor + L.off_dex_size_) →
      vdex_GetNextDexFileData L m cursor offset =
        (some (cursor + offset),
          (offset + rd32 m (cursor + offset + L.off_fileSize)) % U32)) := by
  unfold vdex_GetNextDexFileData
  rw [if_neg h0]
  simp only [vdex_DexEnd, vdex_DexBegin]
  constructor
  · constructor
    · intro h
      split at h
      · simp at h
      · split at h
        · simp at h
        · omega
    · intro h
      rw [if_neg (by omega), if_neg (by omega)]
  · intro h
    split
    · rfl
    · rw [if_pos (by omega)]

/-- Witness of claim C10 as amended: the third dex file of a container with three. -/
theorem getNext_at_nonzero_cursor_witness :
    (420 : Nat) ≠ 0 ∧
    vdex_GetNextDexFileData stdLayout secondTooLong 0 420 = (some 420, 612) :=
  ⟨by decide,
   (getNext_at_nonzero_cursor stdLayout secondTooLong 0 420 (by decide)).2 (by decide)⟩

/-- Claim C11 fails on a container whose header declares a modules section of
`0xFFFFFFFF` bytes and whose first dex file, at 28, declares the size
`0xFFFFFFF0`: header size + length of the checksum table + `fileSize` is
4294967308, the first call returns the dex file at 28 and sets the cursor
to 12. -/
theorem first_call_cursor_wraps :
    vdex_hasDexSection stdLayout hugeSection 0 = true ∧
    stdLayout.sizeof_vdexHeader + vdex_GetSizeOfChecksumsSection stdLayout hugeSection 0 +
      rd32 hugeSection (28 + stdLayout.off_fileSize) = 4294967308 ∧
    vdex_GetNextDexFileData stdLayout hugeSection 0 0 = (some 28, 12) := by
  decide

/-- Claim C11 as amended.  The first call (cursor value 0) returns `NULL` exactly
when `dex_size_` is 0, and then leaves the cursor at 0; otherwise it returns the
module at the start of the modules section (header size + length of the checksum
table) and sets the cursor to header size + length of the checksum table +
`fileSize` of that module, modulo `2^32`. -/
theorem getNext_at_first_call (L : Layout) (m : Mem) (cursor : Nat) :
    ((vdex_GetNextDexFileData L m cursor 0).1 = none ↔
      rd32 m (cursor + L.off_dex_size_) = 0) ∧
    (rd32 m (cursor + L.off_dex_size_) = 0 →
      vdex_GetNextDexFileData L m cursor 0 = (none, 0)) ∧
    (rd32 m (cursor + L.off_dex_size_) ≠ 0 →
      vdex_GetNextDexFileData L m cursor 0 =
        (some (cursor + L.sizeof_vdexHeader + vdex_GetSizeOfChecksumsSection L m cursor),
         (L.sizeof_vdexHeader + vdex_GetSizeOfChecksumsSection L m cursor +
           rd32 m (cursor + L.sizeof_vdexHeader + vdex_GetSizeOfChecksumsSection L m cursor +
             L.off_fileSize)) % U32)) := by
  unfold vdex_GetNextDexFileData vdex_hasDexSection vdex_DexBegin
  rw [if_pos rfl]
  by_cases h : rd32 m (cursor + L.off_dex_size_) = 0
  · simp [h]
  · simp [h]

/-- Witness of claim C11 as amended: the first call on a container with one dex
file of 288 bytes at 28, and on a container without dex section. -/
theorem getNext_at_first_call_witness :
    rd32 threeMethods (0 + stdLayout.off_dex_size_) ≠ 0 ∧
    vdex_GetNextDexFileData stdLayout threeMethods 0 0 = (some 28, 316) ∧
    rd32 noDexSection (0 + stdLayout.off_dex_size_) = 0 ∧
    vdex_GetNextDexFileData stdLayout noDexSection 0 0 = (none, 0) :=
  ⟨by decide, (getNext_at_first_call stdLayout threeMethods 0).2.2 (by decide),
   by decide, (getNext_at_first_call stdLayout noDexSection 0).2.1 (by decide)⟩

/-- Claim C12, evaluated on a container whose modules section ends at 220 and whose
first dex file, at 28, declares the size 65536: the first call returns the dex
file, whose end is 65564, and the driver hands its method to the transform.  At
a non-zero cursor value a dex file that is returned ends at or before
`vdex_DexEnd`. -/
theorem first_module_not_bounds_checked :
    (vdex_DexEnd stdLayout firstTooLong 0 = 220 ∧
     vdex_GetNextDexFileData stdLayout firstTooLong 0 0 = (some 28, 65564) ∧
     28 + rd32 firstTooLong (28 + stdLayout.off_fileSize) = 65564 ∧
     (vdex_Unquicken stdLayout (lebDex trAccept) firstTooLong 0).calls =
       [⟨188, 260, 1, true⟩]) ∧
    (∀ (L : Layout) (m : Mem) (cursor offset b off1 : Nat), offset ≠ 0 →
      vdex_GetNextDexFileData L m cursor offset = (some b, off1) →
      b + rd32 m (b + L.off_fileSize) ≤ vdex_DexEnd L m cursor) := by
  refine ⟨by decide, ?_⟩
  intro L m cursor offset b off1 h0 h
  unfold vdex_GetNextDexFileData at h
  rw [if_neg h0] at h
  simp only at h
  split at h
  · simp only [Prod.mk.injEq, Option.some.injEq] at h
    obtain ⟨hb, -⟩ := h
    rw [← hb]
    omega
  · split at h
    · simp only [Prod.mk.injEq, Option.some.injEq] at h
      obtain ⟨hb, -⟩ := h
      rw [← hb]
      assumption
    · simp at h

/-- Claim C13, evaluated on a container with one dex file of 288 bytes: the modules
section is from 28 to 316 and `vdex_GetVerifierDepsData` is 288, inside it.  On
every container `vdex_DexEnd` is `vdex_GetVerifierDepsData` plus the header size
and the length of the checksum table. -/
theorem verifier_deps_start_inside_modules :
    (vdex_DexBegin stdLayout threeMethods 0 = 28 ∧
     vdex_DexEnd stdLayout threeMethods 0 = 316 ∧
     vdex_GetVerifierDepsData stdLayout threeMethods 0 = 288) ∧
    (∀ (L : Layout) (m : Mem) (cursor : Nat),
      vdex_DexEnd L m cursor =
        vdex_GetVerifierDepsData L m cursor +
          (L.sizeof_vdexHeader + vdex_GetSizeOfChecksumsSection L m cursor)) := by
  refine ⟨by decide, ?_⟩
  intro L m cursor
  unfold vdex_DexEnd vdex_DexBegin vdex_GetVerifierDepsData
  omega

/-- Claim C14.  `vdex_GetQuickeningInfo` is `vdex_GetVerifierDepsData` plus
`vdex_GetVerifierDepsDataSize`.  When `quickening_info_size_` is not 0,
`vdex_Unquicken` runs its loop with the end of the section at that start plus
`vdex_GetQuickeningInfoSize`, and when it returns `true` its quickening cursor
is at that end. -/
theorem quickening_info_after_verifier_deps (L : Layout) (D : Dex) (m : Mem) (cursor : Nat) :
    vdex_GetQuickeningInfo L m cursor =
      vdex_GetVerifierDepsData L m cursor + vdex_GetVerifierDepsDataSize L m cursor ∧
    (vdex_GetQuickeningInfoSize L m cursor ≠ 0 →
      vdex_Unquicken L D m cursor =
        dexFileLoop L D cursor
          (vdex_GetVerifierDepsData L m cursor + vdex_GetVerifierDepsDataSize L m cursor +
            vdex_GetQuickeningInfoSize L m cursor)
          U32 0 0 (initSt L m cursor) ∧
      ((vdex_Unquicken L D m cursor).ok = true →
        (vdex_Unquicken L D m cursor).qptr =
          vdex_GetVerifierDepsData L m cursor + vdex_GetVerifierDepsDataSize L m cursor +
            vdex_GetQuickeningInfoSize L m cursor)) := by
  refine ⟨rfl, ?_⟩
  intro hq
  constructor
  · unfold vdex_Unquicken
    rw [if_neg hq]
    rfl
  · intro hok
    exact ((unquicken_resultOk L D m cursor hq).1 hok).2

/-- Witness of claim C14: a container with `dex_size_` 288, `verifier_deps_size_`
40 and 17 bytes of quickening info. -/
theorem quickening_info_after_verifier_deps_witness :
    vdex_GetQuickeningInfoSize stdLayout threeMethods 0 ≠ 0 ∧
    vdex_GetVerifierDepsData stdLayout threeMethods 0 = 288 ∧
    vdex_GetVerifierDepsDataSize stdLayout threeMethods 0 = 40 ∧
    vdex_GetQuickeningInfo stdLayout threeMethods 0 = 328 ∧
    (vdex_Unquicken stdLayout (lebDex trAccept) threeMethods 0).ok = true ∧
    (vdex_Unquicken stdLayout (lebDex trAccept) threeMethods 0).qptr = 345 :=
  ⟨by decide, by decide, by decide,
   (quickening_info_after_verifier_deps stdLayout (lebDex trAccept) threeMethods 0).1,
   by decide,
   ((quickening_info_after_verifier_deps stdLayout (lebDex trAccept) threeMethods 0).2
     (by decide)).2 (by decide)⟩

/-- Claim C15 fails on a header whose `number_of_dex_files_` is `2^30`: the length
of the checksum table comes out as 0 and `vdex_DexBegin` as the address after
the header. -/
theorem checksums_size_wraps :
    stdLayout.sizeof_VdexChecksum = 4 ∧
    rd32 manyChecksums (0 + stdLayout.off_number_of_dex_files_) = 1073741824 ∧
    vdex_GetSizeOfChecksumsSection stdLayout manyChecksums 0 = 0 ∧
    vdex_DexBegin stdLayout manyChecksums 0 = 24 := by
  decide

/-- Claim C15 as amended.  With checksums of 4 bytes,
`vdex_GetSizeOfChecksumsSection` returns `4 * number_of_dex_files_` modulo
`2^32`, which is the exact product exactly when `number_of_dex_files_` is below
`2^30`; `vdex_DexBegin` is the base plus the header size plus that length, and
`vdex_DexEnd` is `vdex_DexBegin` plus `dex_size_`. -/
theorem checksums_size_mod (L : Layout) (m : Mem) (cursor : Nat)
    (hck : L.sizeof_VdexChecksum = 4) :
    vdex_GetSizeOfChecksumsSection L m cursor =
      (4 * rd32 m (cursor + L.off_number_of_dex_files_)) % 4294967296 ∧
    (vdex_GetSizeOfChecksumsSection L m cursor =
        4 * rd32 m (cursor + L.off_number_of_dex_files_) ↔
      rd32 m (cursor + L.off_number_of_dex_files_) < 1073741824) ∧
    vdex_DexBegin L m cursor =
      cursor + L.sizeof_vdexHeader +
        (4 * rd32 m (cursor + L.off_number_of_dex_files_)) % 4294967296 ∧
    vdex_DexEnd L m cursor = vdex_DexBegin L m cursor + rd32 m (cursor + L.off_dex_size_) := by
  unfold vdex_DexEnd vdex_DexBegin vdex_GetSizeOfChecksumsSection U32
  rw [hck]
  refine ⟨rfl, ?_, rfl, rfl⟩
  omega

/-- Witness of claim C15 as amended: a container with three dex files and a
`dex_size_` of 576. -/
theorem checksums_size_mod_witness :
    stdLayout.sizeof_VdexChecksum = 4 ∧
    vdex_GetSizeOfChecksumsSection stdLayout secondTooLong 0 = 12 ∧
    vdex_DexBegin stdLayout secondTooLong 0 = 36 ∧
    vdex_DexEnd stdLayout secondTooLong 0 = 612 :=
  ⟨by decide,
   (checksums_size_mod stdLayout secondTooLong 0 (by decide)).1,
   (checksums_size_mod stdLayout secondTooLong 0 (by decide)).2.2.1,
   (checksums_size_mod stdLayout secondTooLong 0 (by decide)).2.2.2⟩

/-- Claim C16.  `vdex_isValidVdex` is `true` exactly when every byte of the magic
field is the byte of `kVdexMagic` at the same index and every byte of the
version field is the byte of `kVdexVersion` at the same index; one byte of the
magic that differs makes it `false`; and two memories with the same bytes in the
two fields give the same result. -/
theorem isValidVdex_iff_magic_and_version (L : Layout) (m : Mem) (cursor : Nat) :
    (vdex_isValidVdex L m cursor = true ↔
      (∀ i, i < L.kVdexMagic.length →
        rd8 m (cursor + L.off_magic_ + i) = L.kVdexMagic.getD i 0 % 256) ∧
      (∀ i, i < L.kVdexVersion.length →
        rd8 m (cursor + L.off_version_ + i) = L.kVdexVersion.getD i 0 % 256)) ∧
    (∀ i, i < L.kVdexMagic.length →
      rd8 m (cursor + L.off_magic_ + i) ≠ L.kVdexMagic.getD i 0 % 256 →
      vdex_isValidVdex L m cursor = false) ∧
    (∀ m1 : Mem,
      (∀ i, i < L.kVdexMagic.length →
        rd8 m1 (cursor + L.off_magic_ + i) = rd8 m (cursor + L.off_magic_ + i)) →
      (∀ i, i < L.kVdexVersion.length →
        rd8 m1 (cursor + L.off_version_ + i) = rd8 m (cursor + L.off_version_ + i)) →
      vdex_isValidVdex L m1 cursor = vdex_isValidVdex L m cursor) := by
  have key : ∀ m0 : Mem, vdex_isValidVdex L m0 cursor = true ↔
      (∀ i, i < L.kVdexMagic.length →
        rd8 m0 (cursor + L.off_magic_ + i) = L.kVdexMagic.getD i 0 % 256) ∧
      (∀ i, i < L.kVdexVersion.length →
        rd8 m0 (cursor + L.off_version_ + i) = L.kVdexVersion.getD i 0 % 256) := by
    intro m0
    unfold vdex_isValidVdex vdex_isMagicValid vdex_isVersionValid
    rw [Bool.and_eq_true, bytesAt_beq_iff, bytesAt_beq_iff]
  refine ⟨key m, ?_, ?_⟩
  · intro i hi hne
    cases hv : vdex_isValidVdex L m cursor
    · rfl
    · exact absurd (((key m).1 hv).1 i hi) hne
  · intro m1 h1 h2
    have e : (vdex_isValidVdex L m1 cursor = true ↔ vdex_isValidVdex L m cursor = true) := by
      rw [key m1, key m]
      constructor
      · intro h
        exact ⟨fun i hi => (h1 i hi) ▸ h.1 i hi, fun i hi => (h2 i hi) ▸ h.2 i hi⟩
      · intro h
        exact ⟨fun i hi => (h1 i hi).symm ▸ h.1 i hi, fun i hi => (h2 i hi).symm ▸ h.2 i hi⟩
    cases ha : vdex_isValidVdex L m1 cursor <;> cases hb : vdex_isValidVdex L m cursor <;>
      simp_all

/-- Witness of claim C16: a valid header, a container that differs from it outside
the two fields only, and the same header with the third byte of the magic
replaced by 0. -/
theorem isValidVdex_iff_magic_and_version_witness :
    vdex_isValidVdex stdLayout threeMethods 0 = true ∧
    vdex_isValidVdex stdLayout hugeSection 0 = vdex_isValidVdex stdLayout threeMethods 0 ∧
    vdex_isValidVdex stdLayout (fun a => if a = 2 then 0 else threeMethods a) 0 = false :=
  ⟨(isValidVdex_iff_magic_and_version stdLayout threeMethods 0).1.2 (by decide),
   (isValidVdex_iff_magic_and_version stdLayout threeMethods 0).2.2 hugeSection
     (by decide) (by decide),
   (isValidVdex_iff_magic_and_version stdLayout
     (fun a => if a = 2 then 0 else threeMethods a) 0).2.1 2 (by decide) (by decide)⟩

/-- Claim C17, evaluated on a checksum table with the entries `0x11223344` and
`0x55667788`: for the index 0 `vdex_GetLocationChecksum` returns `0x44` and for
the index 1 it returns `0x33`, the second byte of the first entry.  On every
container the value it returns is below 256. -/
theorem location_checksum_is_one_byte :
    (rd32 twoChecksums (0 + stdLayout.sizeof_vdexHeader + 4 * 0) = 287454020 ∧
     vdex_GetLocationChecksum stdLayout twoChecksums 0 0 = 68 ∧
     rd32 twoChecksums (0 + stdLayout.sizeof_vdexHeader + 4 * 1) = 1432778632 ∧
     vdex_GetLocationChecksum stdLayout twoChecksums 0 1 = 51) ∧
    (∀ (L : Layout) (m : Mem) (cursor fileIdx : Nat),
      vdex_GetLocationChecksum L m cursor fileIdx < 256) := by
  refine ⟨by decide, ?_⟩
  intro L m cursor fileIdx
  exact rd8_lt m _

/-- Claim C18.  When `vdex_GetNextDexFileData` returns `NULL` the cursor value is
the one it had on entry, and the call repeated with that cursor returns `NULL`
again; `NULL` is returned on the first call without dex section and on a later
call whose dex file ends beyond `vdex_DexEnd`. -/
theorem getNext_none_keeps_cursor (L : Layout) (m : Mem) (cursor offset : Nat)
    (h : (vdex_GetNextDexFileData L m cursor offset).1 = none) :
    (vdex_GetNextDexFileData L m cursor offset).2 = offset ∧
    vdex_GetNextDexFileData L m cursor (vdex_GetNextDexFileData L m cursor offset).2 =
      (none, offset) ∧
    ((offset = 0 ∧ vdex_hasDexSection L m cursor = false) ∨
     (offset ≠ 0 ∧
      vdex_DexEnd L m cursor <
        cursor + offset + rd32 m (cursor + offset + L.off_fileSize))) := by
  have h1 : vdex_GetNextDexFileData L m cursor offset = (none, offset) ∧
      ((offset = 0 ∧ vdex_hasDexSection L m cursor = false) ∨
       (offset ≠ 0 ∧
        vdex_DexEnd L m cursor <
          cursor + offset + rd32 m (cursor + offset + L.off_fileSize))) := by
    unfold vdex_GetNextDexFileData at h ⊢
    by_cases h0 : offset = 0
    · rw [if_pos h0] at h ⊢
      split at h
      · simp at h
      · rename_i hh
        rw [if_neg hh]
        exact ⟨rfl, Or.inl ⟨h0, by simpa using hh⟩⟩
    · rw [if_neg h0] at h ⊢
      simp only at h ⊢
      split at h
      · simp at h
      · split at h
        · simp at h
        · rename_i ha hb
          rw [if_neg ha, if_neg hb]
          exact ⟨rfl, Or.inr ⟨h0, by omega⟩⟩
  rw [h1.1]
  exact ⟨rfl, h1.1, h1.2⟩

/-- Witness of claim C18: the second dex file of a container with three, which
declares a size beyond the end of the section, and the first call on a container
without dex section. -/
theorem getNext_none_keeps_cursor_witness :
    (vdex_GetNextDexFileData stdLayout secondTooLong 0 228).1 = none ∧
    (vdex_GetNextDexFileData stdLayout secondTooLong 0 228).2 = 228 ∧
    vdex_GetNextDexFileData stdLayout secondTooLong 0
      (vdex_GetNextDexFileData stdLayout secondTooLong 0 228).2 = (none, 228) ∧
    (vdex_GetNextDexFileData stdLayout noDexSection 0 0).2 = 0 :=
  ⟨by decide,
   (getNext_none_keeps_cursor stdLayout secondTooLong 0 228 (by decide)).1,
   (getNext_none_keeps_cursor stdLayout secondTooLong 0 228 (by decide)).2.1,
   (getNext_none_keeps_cursor stdLayout noDexSection 0 0 (by decide)).1⟩

/-- Claim C19, evaluated on a container whose modules section ends at 4294967327 and
whose first dex file, at 32, declares the size `2^32 - 32`: the dex file ends
inside the section, the first call returns it and leaves the cursor at 0, and
the driver is given the same dex file by its second call.  On every container
the first dex file returned is the one at `vdex_DexBegin`, and a dex file
returned at a non-zero cursor starts at the container offset of the one before
plus its `fileSize`, modulo `2^32`. -/
theorem cursor_returns_to_first_call_value :
    (vdex_DexEnd stdLayout sectionToTheBrim 0 = 4294967327 ∧
     32 + rd32 sectionToTheBrim (32 + stdLayout.off_fileSize) = 4294967296 ∧
     vdex_GetNextDexFileData stdLayout sectionToTheBrim 0 0 = (some 32, 0) ∧
     (vdex_Unquicken stdLayout (lebDex trAccept) sectionToTheBrim 0).iters =
       [⟨0, some 32, 0⟩, ⟨0, some 32, 0⟩]) ∧
    (∀ (L : Layout) (m : Mem) (cursor offset b off1 b2 off2 : Nat),
      vdex_GetNextDexFileData L m cursor offset = (some b, off1) →
      vdex_GetNextDexFileData L m cursor off1 = (some b2, off2) →
      (offset = 0 → b = vdex_DexBegin L m cursor) ∧
      (off1 ≠ 0 → b2 = cursor + (b - cursor + rd32 m (b + L.off_fileSize)) % U32)) := by
  refine ⟨by decide, ?_⟩
  intro L m cursor offset b off1 b2 off2 h1 h2
  have g1 := getNext_some L m cursor offset b off1 h1
  have g2 := getNext_some L m cursor off1 b2 off2 h2
  constructor
  · intro h0
    rw [if_pos h0] at g1
    exact g1.1
  · intro h0
    rw [if_neg h0] at g2
    rw [g2.1, g1.2]

end Vdex
